import Mathlib

/-!
Verification of the SpaceshipGenerator procedural mesh generator
(`spaceship_generator/generator.py`, `spaceship_generator/geometry.py`)
against its natural-language specification.

The development is a shallow embedding:
* Python floats are modelled as real numbers (exact arithmetic).
* `mathutils.Vector` / `Matrix` are modelled by `Vec3` / `Mat3` / `Aff3`.
* The Blender `bmesh` substrate (an external collaborator of the core,
  spec section 6) is modelled by explicit Lean functions over a mesh state;
  each model is documented at its definition.
* Python's global random stream is an explicit stream of draws threaded
  through a state monad; `random()`, `uniform(a,b)` and `randint(a,b)` each
  consume one draw, in call order, as the spec's Random Stream describes.
* Python exceptions (ValueError, ZeroDivisionError, IndexError) are modelled
  with an `Except`-style result carried next to the mutable state, so the
  state at the moment an exception is raised remains observable.
-/

namespace SSG

noncomputable section

/-! ## Real 3-vectors, matrices and affine transforms (model of mathutils) -/

/-- Model of `mathutils.Vector` with three components. -/
structure Vec3 where
  x : ℝ
  y : ℝ
  z : ℝ

namespace Vec3

@[ext] theorem ext_iff2 {a b : Vec3} (hx : a.x = b.x) (hy : a.y = b.y)
    (hz : a.z = b.z) : a = b := by
  cases a; cases b; simp_all

instance : Zero Vec3 := ⟨⟨0, 0, 0⟩⟩

instance : Add Vec3 := ⟨fun a b => ⟨a.x + b.x, a.y + b.y, a.z + b.z⟩⟩

instance : Sub Vec3 := ⟨fun a b => ⟨a.x - b.x, a.y - b.y, a.z - b.z⟩⟩

instance : Neg Vec3 := ⟨fun a => ⟨-a.x, -a.y, -a.z⟩⟩

instance : SMul ℝ Vec3 := ⟨fun c a => ⟨c * a.x, c * a.y, c * a.z⟩⟩

@[simp] theorem zero_x : (0 : Vec3).x = 0 := rfl
@[simp] theorem zero_y : (0 : Vec3).y = 0 := rfl
@[simp] theorem zero_z : (0 : Vec3).z = 0 := rfl
@[simp] theorem add_x (a b : Vec3) : (a + b).x = a.x + b.x := rfl
@[simp] theorem add_y (a b : Vec3) : (a + b).y = a.y + b.y := rfl
@[simp] theorem add_z (a b : Vec3) : (a + b).z = a.z + b.z := rfl
@[simp] theorem sub_x (a b : Vec3) : (a - b).x = a.x - b.x := rfl
@[simp] theorem sub_y (a b : Vec3) : (a - b).y = a.y - b.y := rfl
@[simp] theorem sub_z (a b : Vec3) : (a - b).z = a.z - b.z := rfl
@[simp] theorem neg_x (a : Vec3) : (-a).x = -a.x := rfl
@[simp] theorem neg_y (a : Vec3) : (-a).y = -a.y := rfl
@[simp] theorem neg_z (a : Vec3) : (-a).z = -a.z := rfl
@[simp] theorem smul_x (c : ℝ) (a : Vec3) : (c • a).x = c * a.x := rfl
@[simp] theorem smul_y (c : ℝ) (a : Vec3) : (c • a).y = c * a.y := rfl
@[simp] theorem smul_z (c : ℝ) (a : Vec3) : (c • a).z = c * a.z := rfl

/-- Dot product. -/
def dot (a b : Vec3) : ℝ := a.x * b.x + a.y * b.y + a.z * b.z

/-- Cross product, as `mathutils.Vector.cross`. -/
def cross (a b : Vec3) : Vec3 :=
  ⟨a.y * b.z - a.z * b.y, a.z * b.x - a.x * b.z, a.x * b.y - a.y * b.x⟩

/-- Euclidean length, as `mathutils.Vector.length`. -/
def vnorm (a : Vec3) : ℝ := Real.sqrt (dot a a)

/-- Model of `mathutils.Vector.normalized()`: the vector scaled by the
inverse of its length; for the zero vector the result is the zero vector
(mathutils also returns a zero vector there), matching the Lean convention
that the inverse of zero is zero. -/
def normalized (a : Vec3) : Vec3 := (vnorm a)⁻¹ • a

/-- Componentwise linear interpolation, as `mathutils.Vector.lerp`. -/
def lerp (a b : Vec3) (t : ℝ) : Vec3 :=
  ⟨a.x + (b.x - a.x) * t, a.y + (b.y - a.y) * t, a.z + (b.z - a.z) * t⟩

theorem dot_self_nonneg (a : Vec3) : 0 ≤ dot a a := by
  unfold dot; nlinarith [sq_nonneg a.x, sq_nonneg a.y, sq_nonneg a.z]

theorem vnorm_nonneg (a : Vec3) : 0 ≤ vnorm a := Real.sqrt_nonneg _

theorem vnorm_eq_zero {a : Vec3} : vnorm a = 0 ↔ a = 0 := by
  unfold vnorm
  rw [Real.sqrt_eq_zero (dot_self_nonneg a)]
  constructor
  · intro h
    unfold dot at h
    refine ext_iff2 ?_ ?_ ?_ <;> simp only [zero_x, zero_y, zero_z] <;>
      nlinarith [sq_nonneg a.x, sq_nonneg a.y, sq_nonneg a.z]
  · intro h; subst h; simp [dot]

theorem vnorm_pos {a : Vec3} (h : a ≠ 0) : 0 < vnorm a := by
  rcases lt_or_eq_of_le (vnorm_nonneg a) with hp | hz
  · exact hp
  · exact absurd (vnorm_eq_zero.mp hz.symm) h

theorem dot_self_eq_sq_vnorm (a : Vec3) : dot a a = vnorm a * vnorm a :=
  (Real.mul_self_sqrt (dot_self_nonneg a)).symm

theorem vnorm_smul (c : ℝ) (a : Vec3) : vnorm (c • a) = |c| * vnorm a := by
  unfold vnorm
  have h : dot (c • a) (c • a) = c ^ 2 * dot a a := by simp [dot]; ring
  rw [h, Real.sqrt_mul (sq_nonneg c), Real.sqrt_sq_eq_abs]

/-- A normalized nonzero vector has unit length. -/
theorem vnorm_normalized {a : Vec3} (h : a ≠ 0) : vnorm (normalized a) = 1 := by
  have hn : 0 < vnorm a := vnorm_pos h
  unfold normalized
  rw [vnorm_smul, abs_of_nonneg (inv_nonneg.mpr (vnorm_nonneg a)),
    inv_mul_cancel₀ (ne_of_gt hn)]

/-- A normalized nonzero vector has unit self dot product. -/
theorem dot_self_normalized {a : Vec3} (h : a ≠ 0) :
    dot (normalized a) (normalized a) = 1 := by
  rw [dot_self_eq_sq_vnorm, vnorm_normalized h]; ring

/-- Normalizing is invariant under scaling by a positive factor. -/
theorem normalized_smul_pos {c : ℝ} (hc : 0 < c) (a : Vec3) :
    normalized (c • a) = normalized a := by
  unfold normalized
  rw [vnorm_smul, abs_of_nonneg hc.le]
  by_cases ha : a = 0
  · subst ha
    refine ext_iff2 ?_ ?_ ?_ <;> simp
  · have hn : vnorm a ≠ 0 := ne_of_gt (vnorm_pos ha)
    refine ext_iff2 ?_ ?_ ?_ <;>
      · simp only [smul_x, smul_y, smul_z]
        field_simp
        ring

/-- Lagrange identity for the cross product: the squared length of a cross
product in terms of dot products. -/
theorem dot_cross_self (a b : Vec3) :
    dot (cross a b) (cross a b) = dot a a * dot b b - dot a b ^ 2 := by
  unfold dot cross; ring

theorem dot_cross_left (a b : Vec3) : dot a (cross a b) = 0 := by
  unfold dot cross; ring

theorem dot_cross_right (a b : Vec3) : dot b (cross a b) = 0 := by
  unfold dot cross; ring

theorem cross_smul_smul (c d : ℝ) (a b : Vec3) :
    cross (c • a) (d • b) = (c * d) • cross a b := by
  refine ext_iff2 ?_ ?_ ?_ <;> simp [cross] <;> ring

end Vec3

/-- Model of a 3x3 `mathutils.Matrix` given by its three rows (mathutils
constructs `Matrix((r0, r1, r2))` from rows). -/
structure Mat3 where
  r0 : Vec3
  r1 : Vec3
  r2 : Vec3

namespace Mat3

/-- Matrix-vector product. -/
def mulVec (m : Mat3) (v : Vec3) : Vec3 :=
  ⟨Vec3.dot m.r0 v, Vec3.dot m.r1 v, Vec3.dot m.r2 v⟩

/-- Determinant. -/
def det (m : Mat3) : ℝ := Vec3.dot m.r0 (Vec3.cross m.r1 m.r2)

/-- Inverse by the adjugate formula (model of `mathutils.Matrix.invert()`;
mathutils raises on a singular matrix, here a singular matrix yields a
garbage result through division by zero, and every use below carries a
nonsingularity hypothesis). -/
def inv (m : Mat3) : Mat3 :=
  let d := m.det
  let u := Vec3.cross m.r1 m.r2
  let v := Vec3.cross m.r2 m.r0
  let w := Vec3.cross m.r0 m.r1
  ⟨d⁻¹ • ⟨u.x, v.x, w.x⟩, d⁻¹ • ⟨u.y, v.y, w.y⟩, d⁻¹ • ⟨u.z, v.z, w.z⟩⟩

theorem mulVec_inv_cancel {m : Mat3} (h : m.det ≠ 0) (v : Vec3) :
    m.mulVec (m.inv.mulVec v) = v := by
  obtain ⟨⟨a1, a2, a3⟩, ⟨b1, b2, b3⟩, ⟨c1, c2, c3⟩⟩ := m
  unfold det Vec3.dot Vec3.cross at h
  simp only at h
  refine Vec3.ext_iff2 ?_ ?_ ?_ <;>
    · simp only [mulVec, inv, det, Vec3.dot, Vec3.cross, Vec3.smul_x, Vec3.smul_y,
        Vec3.smul_z]
      field_simp
      ring

theorem inv_mulVec_cancel {m : Mat3} (h : m.det ≠ 0) (v : Vec3) :
    m.inv.mulVec (m.mulVec v) = v := by
  obtain ⟨⟨a1, a2, a3⟩, ⟨b1, b2, b3⟩, ⟨c1, c2, c3⟩⟩ := m
  unfold det Vec3.dot Vec3.cross at h
  simp only at h
  refine Vec3.ext_iff2 ?_ ?_ ?_ <;>
    · simp only [mulVec, inv, det, Vec3.dot, Vec3.cross, Vec3.smul_x, Vec3.smul_y,
        Vec3.smul_z]
      field_simp
      ring

end Mat3

/-- An affine transform: a linear part (3x3 rows) and a translation, the
shape of a `mathutils` 4x4 matrix built by `to_4x4()` with its
`translation` set. It sends `v` to `L v + t`. -/
structure Aff3 where
  L : Mat3
  t : Vec3

namespace Aff3

def apply (A : Aff3) (v : Vec3) : Vec3 := A.L.mulVec v + A.t

/-- Affine inverse (model of `mathutils.Matrix.invert()` on a 4x4 transform):
sends `v` to `L⁻¹ (v − t)`. -/
def inv (A : Aff3) : Aff3 := ⟨A.L.inv, -(A.L.inv.mulVec A.t)⟩

theorem inv_apply_apply {A : Aff3} (h : A.L.det ≠ 0) (v : Vec3) :
    A.inv.apply (A.apply v) = v := by
  unfold apply inv
  have : A.L.inv.mulVec (A.L.mulVec v + A.t)
      = A.L.inv.mulVec (A.L.mulVec v) + A.L.inv.mulVec A.t := by
    refine Vec3.ext_iff2 ?_ ?_ ?_ <;> simp [Mat3.mulVec, Vec3.dot] <;> ring
  rw [this, Mat3.inv_mulVec_cancel h]
  refine Vec3.ext_iff2 ?_ ?_ ?_ <;> simp

theorem apply_inv_apply {A : Aff3} (h : A.L.det ≠ 0) (v : Vec3) :
    A.apply (A.inv.apply v) = v := by
  unfold apply inv
  have : A.L.mulVec (A.L.inv.mulVec v + -(A.L.inv.mulVec A.t))
      = A.L.mulVec (A.L.inv.mulVec v) - A.L.mulVec (A.L.inv.mulVec A.t) := by
    refine Vec3.ext_iff2 ?_ ?_ ?_ <;> simp [Mat3.mulVec, Vec3.dot] <;> ring
  rw [this, Mat3.mulVec_inv_cancel h, Mat3.mulVec_inv_cancel h]
  refine Vec3.ext_iff2 ?_ ?_ ?_ <;> simp

end Aff3

namespace Mat3

theorem mulVec_smul (m : Mat3) (c : ℝ) (v : Vec3) :
    m.mulVec (c • v) = c • m.mulVec v := by
  refine Vec3.ext_iff2 ?_ ?_ ?_ <;> simp [mulVec, Vec3.dot] <;> ring

theorem mulVec_sub (m : Mat3) (v w : Vec3) :
    m.mulVec (v - w) = m.mulVec v - m.mulVec w := by
  refine Vec3.ext_iff2 ?_ ?_ ?_ <;> simp [mulVec, Vec3.dot] <;> ring

theorem det_inv {m : Mat3} (h : m.det ≠ 0) : m.inv.det = m.det⁻¹ := by
  obtain ⟨⟨a1, a2, a3⟩, ⟨b1, b2, b3⟩, ⟨c1, c2, c3⟩⟩ := m
  unfold det Vec3.dot Vec3.cross at h
  simp only at h
  simp only [inv, det, Vec3.dot, Vec3.cross, Vec3.smul_x, Vec3.smul_y, Vec3.smul_z]
  field_simp
  ring

end Mat3

namespace Vec3

theorem dot_smul_left (c : ℝ) (a b : Vec3) : dot (c • a) b = c * dot a b := by
  simp [dot]; ring

theorem dot_smul_right (c : ℝ) (a b : Vec3) : dot a (c • b) = c * dot a b := by
  simp [dot]; ring

theorem smul_ne_zero_iff {c : ℝ} {a : Vec3} (hc : c ≠ 0) (ha : a ≠ 0) :
    c • a ≠ 0 := by
  intro h
  apply ha
  have hx := congrArg x h
  have hy := congrArg y h
  have hz := congrArg z h
  simp only [smul_x, smul_y, smul_z, zero_x, zero_y, zero_z] at hx hy hz
  refine ext_iff2 ?_ ?_ ?_ <;> simp
  · exact (mul_eq_zero.mp hx).resolve_left hc
  · exact (mul_eq_zero.mp hy).resolve_left hc
  · exact (mul_eq_zero.mp hz).resolve_left hc

theorem dot_self_pos {a : Vec3} (h : a ≠ 0) : 0 < dot a a := by
  rw [dot_self_eq_sq_vnorm]
  exact mul_pos (vnorm_pos h) (vnorm_pos h)

end Vec3

/-- Aff3 double inverse acts like the original transform (on nonsingular
linear parts). -/
theorem Aff3.inv_inv_apply {A : Aff3} (h : A.L.det ≠ 0) (w : Vec3) :
    A.inv.inv.apply w = A.apply w := by
  have hB : A.inv.L.det ≠ 0 := by
    show (A.L.inv).det ≠ 0
    rw [Mat3.det_inv h]
    exact inv_ne_zero h
  conv_lhs => rw [show w = A.inv.apply (A.apply w) from (Aff3.inv_apply_apply h w).symm]
  exact Aff3.inv_apply_apply hB (A.apply w)

/-! ## Face-local embedding of the Face Transform Operations (geometry.py)

`extrude_face`, `ribbed_extrude_face`, `scale_face` and `get_face_matrix`
operate on one face; this layer embeds them at the granularity of the quad
face they move (the mesh-level model further below embeds the same source
functions inside the full generator state, where the substrate's side-ring
faces and bookkeeping are also kept). -/

namespace FG

open Vec3

/-- A quad face: the four vertex positions in loop order (`face.verts[i].co`). -/
structure Quad where
  v0 : Vec3
  v1 : Vec3
  v2 : Vec3
  v3 : Vec3

/-- Apply a map to each vertex of the quad. -/
def mapVerts (q : Quad) (f : Vec3 → Vec3) : Quad := ⟨f q.v0, f q.v1, f q.v2, f q.v3⟩

/-- The cross product of the quad's diagonals: Blender computes a quad
face's normal (`normal_quad_v3`) from this cross product. -/
def diagCross (q : Quad) : Vec3 := cross (q.v0 - q.v2) (q.v1 - q.v3)

/-- Model of `BMFace.normal` for a quad: the normalized diagonal cross
product (Blender's `normal_quad_v3`). -/
def quadNormal (q : Quad) : Vec3 := normalized (diagCross q)

/-- Cross product of the two frame edges used by `get_face_matrix`; the
face's frame matrix is singular exactly when this vanishes. -/
def edgeCross (q : Quad) : Vec3 := cross (q.v1 - q.v0) (q.v3 - q.v0)

/-- The frame transform `geometry.get_face_matrix` builds from the three
vertex positions it reads (`verts[0]`, `verts[1]`, `verts[3]`): x-axis the
normalized `v1 - v0`, y-axis the normalized `v3 - v0`, third row their
cross product; `mathutils.Matrix((x_axis, y_axis, normal))` builds the
matrix from these ROWS, `to_4x4()` and `mat.translation = pos` make it
affine with translation `pos` (default `verts[0].co`). -/
def face_matrix_core (p0 p1 p3 : Vec3) (pos : Option Vec3) : Aff3 :=
  let x_axis := normalized (p1 - p0)
  let y_axis := normalized (p3 - p0)
  let normal := cross x_axis y_axis
  ⟨⟨x_axis, y_axis, normal⟩, pos.getD p0⟩

/-- Embedding of `geometry.get_face_matrix(face, pos=None)` on a quad. -/
def get_face_matrix (q : Quad) (pos : Option Vec3) : Aff3 :=
  face_matrix_core q.v0 q.v1 q.v3 pos

/-- Model of `bmesh.ops.scale(bm, vec, space, verts)`: each vertex is
carried into `space`, scaled componentwise by `vec`, and carried back
through the inverse of `space` (Blender's `bmo_scale_exec`). -/
def bmoScaleVert (space : Aff3) (s : Vec3) (v : Vec3) : Vec3 :=
  let w := space.apply v
  space.inv.apply ⟨s.x * w.x, s.y * w.y, s.z * w.z⟩

/-- Embedding of `geometry.scale_face(bm, face, sx, sy, sz)`: the face
matrix is inverted (`face_space.invert()`) and the face's vertices are
scaled in that space. -/
def scale_face (q : Quad) (scale_x scale_y scale_z : ℝ) : Quad :=
  let face_space := (get_face_matrix q none).inv
  mapVerts q (bmoScaleVert face_space ⟨scale_x, scale_y, scale_z⟩)

/-- Embedding of `geometry.extrude_face(bm, face, translate_forwards)` at
the granularity of the moving cap face: `extrude_discrete_faces` duplicates
the face in place (the duplicate's recomputed normal equals the original's)
and `bmesh.ops.translate` moves the duplicate's vertices along the new
face's own normal by `translate_forwards`. -/
def extrude_face (q : Quad) (translate_forwards : ℝ) : Quad :=
  mapVerts q (fun v => v + translate_forwards • quadNormal q)

/-- One rib of `geometry.ribbed_extrude_face`: forward quarter, zero-length
joint, contract by `rib_scale`, forward half, zero-length joint, expand by
`1 / rib_scale`, forward quarter. -/
def rib_step (q : Quad) (per_rib : ℝ) (rib_scale : ℝ) : Quad :=
  let f1 := extrude_face q (per_rib * 0.25)
  let f2 := extrude_face f1 0
  let f3 := scale_face f2 rib_scale rib_scale rib_scale
  let f4 := extrude_face f3 (per_rib * 0.5)
  let f5 := extrude_face f4 0
  let f6 := scale_face f5 (1 / rib_scale) (1 / rib_scale) (1 / rib_scale)
  extrude_face f6 (per_rib * 0.25)

/-- The rib loop of `ribbed_extrude_face`. -/
def ribLoop (per_rib : ℝ) (rib_scale : ℝ) : Nat → Quad → Quad
  | 0, q => q
  | n + 1, q => ribLoop per_rib rib_scale n (rib_step q per_rib rib_scale)

/-- Embedding of `geometry.ribbed_extrude_face(bm, face, translate_forwards,
num_ribs, rib_scale)`: the per-rib distance is `translate_forwards /
num_ribs` and the rib pattern is repeated `num_ribs` times. -/
def ribbed_extrude_face (q : Quad) (translate_forwards : ℝ) (num_ribs : Nat)
    (rib_scale : ℝ) : Quad :=
  ribLoop (translate_forwards / num_ribs) rib_scale num_ribs q

end FG

namespace Vec3

instance : AddCommGroup Vec3 where
  add_assoc a b c := by refine ext_iff2 ?_ ?_ ?_ <;> simp <;> ring
  zero_add a := by refine ext_iff2 ?_ ?_ ?_ <;> simp
  add_zero a := by refine ext_iff2 ?_ ?_ ?_ <;> simp
  add_comm a b := by refine ext_iff2 ?_ ?_ ?_ <;> simp <;> ring
  neg_add_cancel a := by refine ext_iff2 ?_ ?_ ?_ <;> simp
  sub_eq_add_neg a b := by refine ext_iff2 ?_ ?_ ?_ <;> simp <;> ring
  nsmul := nsmulRec
  zsmul := zsmulRec

instance : Module ℝ Vec3 where
  one_smul a := by refine ext_iff2 ?_ ?_ ?_ <;> simp
  mul_smul c d a := by refine ext_iff2 ?_ ?_ ?_ <;> simp <;> ring
  smul_zero c := by refine ext_iff2 ?_ ?_ ?_ <;> simp
  smul_add c a b := by refine ext_iff2 ?_ ?_ ?_ <;> simp <;> ring
  add_smul c d a := by refine ext_iff2 ?_ ?_ ?_ <;> simp <;> ring
  zero_smul a := by refine ext_iff2 ?_ ?_ ?_ <;> simp

theorem cross_zero_left (b : Vec3) : cross 0 b = 0 := by
  refine ext_iff2 ?_ ?_ ?_ <;> simp [cross]

theorem cross_zero_right (a : Vec3) : cross a 0 = 0 := by
  refine ext_iff2 ?_ ?_ ?_ <;> simp [cross]

end Vec3

namespace FG

open Vec3

theorem extrude_v0 (q : Quad) (d : ℝ) :
    (extrude_face q d).v0 = q.v0 + d • quadNormal q := rfl

theorem diagCross_extrude (q : Quad) (d : ℝ) :
    diagCross (extrude_face q d) = diagCross q := by
  unfold diagCross extrude_face mapVerts
  congr 1 <;> abel

theorem edgeCross_extrude (q : Quad) (d : ℝ) :
    edgeCross (extrude_face q d) = edgeCross q := by
  unfold edgeCross extrude_face mapVerts
  congr 1 <;> abel

theorem quadNormal_extrude (q : Quad) (d : ℝ) :
    quadNormal (extrude_face q d) = quadNormal q := by
  unfold quadNormal
  rw [diagCross_extrude]

/-- The determinant of a matrix whose third row is the cross product of its
first two rows is the squared length of that cross product. -/
theorem det_rows_cross (a b : Vec3) :
    (Mat3.mk a b (cross a b)).det = dot (cross a b) (cross a b) := by
  unfold Mat3.det dot cross
  ring

theorem edgeCross_ne_imp_edges {q : Quad} (h : edgeCross q ≠ 0) :
    q.v1 - q.v0 ≠ 0 ∧ q.v3 - q.v0 ≠ 0 := by
  constructor
  · intro h0
    apply h
    unfold edgeCross
    rw [h0, cross_zero_left]
  · intro h0
    apply h
    unfold edgeCross
    rw [h0, cross_zero_right]

/-- The cross product of the two frame axes of `get_face_matrix`, in terms
of the raw edge cross product. -/
theorem frame_cross_eq (q : Quad) :
    cross (normalized (q.v1 - q.v0)) (normalized (q.v3 - q.v0))
      = ((vnorm (q.v1 - q.v0))⁻¹ * (vnorm (q.v3 - q.v0))⁻¹) • edgeCross q := by
  unfold normalized edgeCross
  rw [cross_smul_smul]

theorem frame_cross_ne_zero {q : Quad} (h : edgeCross q ≠ 0) :
    cross (normalized (q.v1 - q.v0)) (normalized (q.v3 - q.v0)) ≠ 0 := by
  obtain ⟨h1, h3⟩ := edgeCross_ne_imp_edges h
  rw [frame_cross_eq]
  exact smul_ne_zero_iff
    (mul_ne_zero (inv_ne_zero (ne_of_gt (vnorm_pos h1)))
      (inv_ne_zero (ne_of_gt (vnorm_pos h3)))) h

/-- The face matrix of a face with independent frame edges is nonsingular. -/
theorem frame_det_ne_zero {q : Quad} (h : edgeCross q ≠ 0) :
    (get_face_matrix q none).L.det ≠ 0 := by
  show (Mat3.mk (normalized (q.v1 - q.v0)) (normalized (q.v3 - q.v0))
      (cross (normalized (q.v1 - q.v0)) (normalized (q.v3 - q.v0)))).det ≠ 0
  rw [det_rows_cross]
  exact ne_of_gt (dot_self_pos (frame_cross_ne_zero h))

/-- Scaling a vertex uniformly in the inverted face-matrix space is the
homothety about the face origin `v0`. -/
theorem bmoScale_uniform_vert {q : Quad} (h : edgeCross q ≠ 0) (s : ℝ) (v : Vec3) :
    bmoScaleVert (get_face_matrix q none).inv ⟨s, s, s⟩ v
      = s • (v - q.v0) + q.v0 := by
  have hd := frame_det_ne_zero h
  set M := get_face_matrix q none with hM
  have ht : M.t = q.v0 := rfl
  have hsc : (⟨s * (M.inv.apply v).x, s * (M.inv.apply v).y, s * (M.inv.apply v).z⟩ : Vec3)
      = s • M.inv.apply v := by
    refine ext_iff2 ?_ ?_ ?_ <;> simp
  show M.inv.inv.apply
      ⟨s * (M.inv.apply v).x, s * (M.inv.apply v).y, s * (M.inv.apply v).z⟩
    = s • (v - q.v0) + q.v0
  rw [hsc, Aff3.inv_inv_apply hd]
  have hu : M.inv.apply v = M.L.inv.mulVec (v - M.t) := by
    show M.L.inv.mulVec v + -(M.L.inv.mulVec M.t) = M.L.inv.mulVec (v - M.t)
    rw [Mat3.mulVec_sub]
    abel
  rw [hu]
  show M.L.mulVec (s • M.L.inv.mulVec (v - M.t)) + M.t = s • (v - q.v0) + q.v0
  rw [Mat3.mulVec_smul, Mat3.mulVec_inv_cancel hd, ht]

/-- `scale_face` with one uniform factor is the homothety of the whole quad
about its own first vertex. -/
theorem scale_face_uniform {q : Quad} (h : edgeCross q ≠ 0) (s : ℝ) :
    scale_face q s s s = mapVerts q (fun v => s • (v - q.v0) + q.v0) := by
  unfold scale_face mapVerts
  simp only [bmoScale_uniform_vert h]

theorem scale_face_uniform_v0 {q : Quad} (h : edgeCross q ≠ 0) (s : ℝ) :
    (scale_face q s s s).v0 = q.v0 := by
  rw [scale_face_uniform h]
  show s • (q.v0 - q.v0) + q.v0 = q.v0
  rw [sub_self, smul_zero, zero_add]

theorem diagCross_scale_face {q : Quad} (h : edgeCross q ≠ 0) (s : ℝ) :
    diagCross (scale_face q s s s) = (s * s) • diagCross q := by
  rw [scale_face_uniform h]
  show cross (s • (q.v0 - q.v0) + q.v0 - (s • (q.v2 - q.v0) + q.v0))
      (s • (q.v1 - q.v0) + q.v0 - (s • (q.v3 - q.v0) + q.v0)) = _
  have e1 : s • (q.v0 - q.v0) + q.v0 - (s • (q.v2 - q.v0) + q.v0)
      = s • (q.v0 - q.v2) := by
    simp only [smul_sub]
    abel
  have e2 : s • (q.v1 - q.v0) + q.v0 - (s • (q.v3 - q.v0) + q.v0)
      = s • (q.v1 - q.v3) := by
    simp only [smul_sub]
    abel
  rw [e1, e2, cross_smul_smul]
  rfl

theorem edgeCross_scale_face {q : Quad} (h : edgeCross q ≠ 0) (s : ℝ) :
    edgeCross (scale_face q s s s) = (s * s) • edgeCross q := by
  rw [scale_face_uniform h]
  show cross (s • (q.v1 - q.v0) + q.v0 - (s • (q.v0 - q.v0) + q.v0))
      (s • (q.v3 - q.v0) + q.v0 - (s • (q.v0 - q.v0) + q.v0)) = _
  have e1 : s • (q.v1 - q.v0) + q.v0 - (s • (q.v0 - q.v0) + q.v0)
      = s • (q.v1 - q.v0) := by
    simp only [smul_sub]
    abel
  have e2 : s • (q.v3 - q.v0) + q.v0 - (s • (q.v0 - q.v0) + q.v0)
      = s • (q.v3 - q.v0) := by
    simp only [smul_sub]
    abel
  rw [e1, e2, cross_smul_smul]
  rfl

theorem quadNormal_scale_face {q : Quad} (h : edgeCross q ≠ 0) {s : ℝ}
    (hs : s ≠ 0) : quadNormal (scale_face q s s s) = quadNormal q := by
  unfold quadNormal
  rw [diagCross_scale_face h]
  exact normalized_smul_pos (mul_self_pos.mpr hs) _

/-- The invariant carried through the rib loop: the quad keeps the original
face normal, keeps a nonsingular frame and a nonzero diagonal cross product,
and its origin vertex has advanced `k` along the original normal. -/
def RibInv (q0 : Quad) (q : Quad) (k : ℝ) : Prop :=
  quadNormal q = quadNormal q0 ∧ edgeCross q ≠ 0 ∧ diagCross q ≠ 0 ∧
    q.v0 = q0.v0 + k • quadNormal q0

theorem ribInv_extrude {q0 q : Quad} {k : ℝ} (hI : RibInv q0 q k) (d : ℝ) :
    RibInv q0 (extrude_face q d) (k + d) := by
  obtain ⟨hn, he, hdg, hv⟩ := hI
  refine ⟨?_, ?_, ?_, ?_⟩
  · rw [quadNormal_extrude, hn]
  · rw [edgeCross_extrude]; exact he
  · rw [diagCross_extrude]; exact hdg
  · rw [extrude_v0, hv, hn, add_smul]
    abel

theorem ribInv_scale {q0 q : Quad} {k : ℝ} (hI : RibInv q0 q k) {s : ℝ}
    (hs : s ≠ 0) : RibInv q0 (scale_face q s s s) k := by
  obtain ⟨hn, he, hdg, hv⟩ := hI
  refine ⟨?_, ?_, ?_, ?_⟩
  · rw [quadNormal_scale_face he hs, hn]
  · rw [edgeCross_scale_face he]
    exact smul_ne_zero_iff (mul_ne_zero hs hs) he
  · rw [diagCross_scale_face he]
    exact smul_ne_zero_iff (mul_ne_zero hs hs) hdg
  · rw [scale_face_uniform_v0 he, hv]

theorem ribInv_rib_step {q0 q : Quad} {k : ℝ} (hI : RibInv q0 q k)
    {s : ℝ} (hs : s ≠ 0) (per : ℝ) : RibInv q0 (rib_step q per s) (k + per) := by
  unfold rib_step
  have h1 := ribInv_extrude hI (per * 0.25)
  have h2 := ribInv_extrude h1 0
  have h3 := ribInv_scale h2 hs
  have h4 := ribInv_extrude h3 (per * 0.5)
  have h5 := ribInv_extrude h4 0
  have h6 := ribInv_scale h5 (one_div_ne_zero hs)
  have h7 := ribInv_extrude h6 (per * 0.25)
  have harith : k + per * 0.25 + 0 + per * 0.5 + 0 + per * 0.25 = k + per := by ring
  rw [harith] at h7
  exact h7

theorem ribInv_ribLoop {q0 : Quad} {s : ℝ} (hs : s ≠ 0) (per : ℝ) :
    ∀ (n : Nat) (q : Quad) (k : ℝ), RibInv q0 q k →
      RibInv q0 (ribLoop per s n q) (k + n * per) := by
  intro n
  induction n with
  | zero => intro q k hI; simpa using hI
  | succ m ih =>
      intro q k hI
      show RibInv q0 (ribLoop per s m (rib_step q per s)) _
      have := ih (rib_step q per s) (k + per) (ribInv_rib_step hI hs per)
      have harith : k + per + m * per = k + (m + 1 : Nat) * per := by
        push_cast
        ring
      rwa [harith] at this

end FG

/-! ## The generator state: mesh arena, random stream, mutation trace

This layer embeds `generator.py` and the face detailers of `geometry.py`
over a mesh state. Python exceptions become an `Except`-style result placed
next to the state (the state at the moment an exception unwinds remains
observable, as it does in Python). -/

/-- The Python exceptions the embedded code can raise. -/
inductive PyErr
  | valueError
  | zeroDivisionError
  | indexError
deriving DecidableEq

/-- The material slots of `materials.Material` (an IntEnum with values
hull = 0, hull_lights = 1, hull_dark = 2, exhaust_burn = 3, glow_disc = 4);
`Material.hull` is the default material index 0 of a new face. -/
inductive Material
  | hull
  | hull_lights
  | hull_dark
  | exhaust_burn
  | glow_disc
deriving DecidableEq

/-- The process-wide random stream of the stdlib `random` module: an
abstract stream of draws consumed in call order, with the index of the next
draw. `random()`, `uniform(a, b)` and `randint(a, b)` each consume one
draw. -/
structure RNG where
  stream : Nat → ℝ
  k : Nat

/-- Model of `random.seed(s)`: installs a generator state that is a
function of the seed string alone. The concrete mixing function stands in
for the Mersenne Twister's seeding; the determinism results depend only on
its being a function of the string. -/
def seedRNG (s : String) : RNG :=
  ⟨fun n => (((s.foldl (fun a c => a * 31 + c.toNat) 7 + n) % 1009 : ℕ) : ℝ) / 1009, 0⟩

/-- One face record of the mesh arena: vertex indices in loop order, the
cached face normal (bmesh caches `BMFace.normal`; it is set by the operation
that creates the face and not refreshed by translate/rotate/scale, and the
generator never calls `normal_update`), the material slot, and the validity
flag (`BMFace.is_valid`, false once a topology operation has consumed the
face; the record stays in the arena so stale references keep a meaning). -/
structure MFace where
  verts : List Nat
  normal : Vec3
  material_index : Material
  isValid : Bool

/-- A primitive created by `bmesh.ops.create_cone` / `create_uvsphere` /
`create_circle`, recorded with its transform and size parameters (the
substrate's many small faces of such a primitive are abstracted into one
record; the claims only observe that geometry was or was not created). -/
inductive PrimKind
  | cone
  | uvsphere
  | circle
deriving DecidableEq

structure Prim where
  kind : PrimKind
  matrix : Aff3
  params : List ℝ

/-- The bmesh being built: a vertex arena, a face arena (faces keep their
index; consumed faces are flagged invalid), and the created primitives. -/
structure Mesh where
  verts : List Vec3
  faces : List MFace
  prims : List Prim

def emptyMesh : Mesh := ⟨[], [], []⟩

/-- Substrate mutation events, in the order they were performed: these make
"a mesh mutation happened before the exception" observable. -/
inductive GEvent
  | createCube
  | scaleVerts
  | translateVerts
  | rotateVerts
  | extrudeFaces
  | subdivideEdges
  | createCone
  | createUVSphere
  | createCircle
deriving DecidableEq

/-- The full interpreter state: the mesh, the random stream, the trace. -/
structure GState where
  mesh : Mesh
  rng : RNG
  trace : List GEvent

/-- The effect monad of the embedding: state plus Python exceptions; the
state is kept also when an exception unwinds. -/
def GenM (α : Type) : Type := GState → Except PyErr α × GState

namespace GenM

def pureG {α : Type} (a : α) : GenM α := fun s => (Except.ok a, s)

def bindG {α β : Type} (m : GenM α) (f : α → GenM β) : GenM β := fun s =>
  match m s with
  | (Except.ok a, t) => f a t
  | (Except.error e, t) => (Except.error e, t)

instance : Monad GenM where
  pure := pureG
  bind := bindG

@[simp] theorem bind_def {α β : Type} (m : GenM α) (f : α → GenM β) :
    (m >>= f) = bindG m f := rfl

@[simp] theorem pure_def {α : Type} (a : α) : (pure a : GenM α) = pureG a := rfl

def throwG {α : Type} (e : PyErr) : GenM α := fun s => (Except.error e, s)

def getState : GenM GState := fun s => (Except.ok s, s)

def modifyMesh (f : Mesh → Mesh) : GenM Unit := fun s =>
  (Except.ok (), { s with mesh := f s.mesh })

def setRng (r : RNG) : GenM Unit := fun s => (Except.ok (), { s with rng := r })

/-- Record one substrate mutation event. -/
def event (e : GEvent) : GenM Unit := fun s =>
  (Except.ok (), { s with trace := s.trace ++ [e] })

/-- One draw from the random stream. -/
def draw : GenM ℝ := fun s =>
  (Except.ok (s.rng.stream s.rng.k), { s with rng := ⟨s.rng.stream, s.rng.k + 1⟩ })

/-- stdlib `random.random()`. -/
def pyRandom : GenM ℝ := draw

/-- stdlib `random.uniform(a, b)`: `a + (b - a) * random()`. -/
def pyUniform (a b : ℝ) : GenM ℝ := do
  let r ← draw
  pure (a + (b - a) * r)

/-- stdlib `random.randint(a, b)`: a uniform integer of `[a, b]`; raises
ValueError when `a > b`, before consuming a draw. The draw-to-integer map
(floor of the scaled draw, clamped into the range) models the stdlib's
integer sampling. -/
def pyRandint (a b : ℤ) : GenM ℤ :=
  if b < a then throwG PyErr.valueError
  else do
    let r ← draw
    pure (a + max 0 (min (b - a) ⌊r * ((b : ℝ) - (a : ℝ) + 1)⌋))

/-- `face = bm.faces[...]` style access to the arena. -/
def getFace (i : Nat) : GenM MFace := fun s =>
  match s.mesh.faces.get? i with
  | some f => (Except.ok f, s)
  | none => (Except.error PyErr.indexError, s)

/-- Read one vertex position. -/
def getVert (j : Nat) : GenM Vec3 := fun s =>
  match s.mesh.verts.get? j with
  | some p => (Except.ok p, s)
  | none => (Except.error PyErr.indexError, s)

/-- `face.verts[k].co`, raising IndexError out of range exactly where the
Python indexing does (spec section 9 leaves faces with fewer than four
vertices an open question: the source raises). -/
def faceVert (f : MFace) (k : Nat) : GenM Vec3 :=
  match f.verts.get? k with
  | some j => getVert j
  | none => throwG PyErr.indexError

/-- The positions of all of a face's vertices. -/
def faceVertPositions (f : MFace) : GenM (List Vec3) := fun s =>
  let rec collect : List Nat → Option (List Vec3)
    | [] => some []
    | j :: rest =>
        match s.mesh.verts.get? j, collect rest with
        | some p, some ps => some (p :: ps)
        | _, _ => none
  match collect f.verts with
  | some ps => (Except.ok ps, s)
  | none => (Except.error PyErr.indexError, s)

/-- Update the face record at an index (identity when the index is out of
the arena). -/
def updFace : List MFace → Nat → (MFace → MFace) → List MFace
  | [], _, _ => []
  | f :: rest, 0, g => g f :: rest
  | f :: rest, n + 1, g => f :: updFace rest n g

/-- `face.material_index = m`. -/
def setFaceMaterial (i : Nat) (m : Material) : GenM Unit :=
  modifyMesh fun mesh =>
    { mesh with faces := updFace mesh.faces i (fun f => { f with material_index := m }) }

/-- Flag a face as consumed (`BMFace.is_valid` becomes false). -/
def invalidateFace (i : Nat) : GenM Unit :=
  modifyMesh fun mesh =>
    { mesh with faces := updFace mesh.faces i (fun f => { f with isValid := false }) }

end GenM

namespace Gen

open GenM Vec3

/-- Normal of a polygon from its vertex positions, as Blender computes a
face's cached normal when the face is created: for a quad the normalized
cross product of the diagonals (`normal_quad_v3`), for a triangle the
normalized edge cross product, and the zero vector for a degenerate list. -/
def polyNormal : List Vec3 → Vec3
  | p0 :: p1 :: p2 :: p3 :: _ => normalized (cross (p0 - p2) (p1 - p3))
  | [p0, p1, p2] => normalized (cross (p1 - p0) (p2 - p0))
  | _ => 0

/-- Centroid of a list of positions. -/
def centroidOf (ps : List Vec3) : Vec3 :=
  ((ps.length : ℝ))⁻¹ • ps.foldl (fun a p => a + p) 0

/-- Apply a map to the vertices whose index is listed, leaving the rest. -/
def mapVertsAt (g : Vec3 → Vec3) (idxs : List Nat) : List Vec3 → Nat → List Vec3
  | [], _ => []
  | v :: rest, j =>
      (if idxs.contains j then g v else v) :: mapVertsAt g idxs rest (j + 1)

/-- Model of `bmesh.ops.translate(bm, vec, verts)`: each listed vertex
moves by `vec`. Cached face normals are untouched (Blender does not refresh
them here). -/
def bmoTranslate (vec : Vec3) (idxs : List Nat) : GenM Unit := do
  event GEvent.translateVerts
  modifyMesh fun mesh =>
    { mesh with verts := mapVertsAt (fun v => v + vec) idxs mesh.verts 0 }

/-- Model of `bmesh.ops.scale(bm, vec, verts)` without a space matrix:
componentwise scaling about the world origin. -/
def bmoScale (svec : Vec3) (idxs : List Nat) : GenM Unit := do
  event GEvent.scaleVerts
  modifyMesh fun mesh =>
    { mesh with
      verts := mapVertsAt (fun v => ⟨svec.x * v.x, svec.y * v.y, svec.z * v.z⟩)
        idxs mesh.verts 0 }

/-- Model of `bmesh.ops.scale(bm, vec, space, verts)` (Blender's
`bmo_scale_exec`): each vertex is carried into `space`, scaled
componentwise, and carried back through the inverse of `space`. -/
def bmoScaleSpace (svec : Vec3) (space : Aff3) (idxs : List Nat) : GenM Unit := do
  event GEvent.scaleVerts
  modifyMesh fun mesh =>
    { mesh with verts := mapVertsAt (FG.bmoScaleVert space svec) idxs mesh.verts 0 }

/-- Model of `bmesh.ops.rotate(bm, cent, matrix, verts)`: each listed
vertex `v` becomes `matrix (v - cent) + cent`. -/
def bmoRotate (cent : Vec3) (m : Mat3) (idxs : List Nat) : GenM Unit := do
  event GEvent.rotateVerts
  modifyMesh fun mesh =>
    { mesh with
      verts := mapVertsAt (fun v => m.mulVec (v - cent) + cent) idxs mesh.verts 0 }

/-- Model of `bmesh.ops.create_cube(bm, size)`: appends the eight corner
vertices of an axis-aligned cube of edge length `size` centred on the
origin, and its six quad faces with outward unit normals and the default
material index 0 (the exact ordering is internal to Blender; a fixed one is
used). -/
def bmoCreateCube (size : ℝ) : GenM Unit := do
  event GEvent.createCube
  modifyMesh fun mesh =>
    let h := size / 2
    let b := mesh.verts.length
    { mesh with
      verts := mesh.verts ++
        [⟨-h, -h, -h⟩, ⟨-h, -h, h⟩, ⟨-h, h, -h⟩, ⟨-h, h, h⟩,
         ⟨h, -h, -h⟩, ⟨h, -h, h⟩, ⟨h, h, -h⟩, ⟨h, h, h⟩],
      faces := mesh.faces ++
        [⟨[b, b + 1, b + 3, b + 2], ⟨-1, 0, 0⟩, Material.hull, true⟩,
         ⟨[b + 4, b + 6, b + 7, b + 5], ⟨1, 0, 0⟩, Material.hull, true⟩,
         ⟨[b, b + 4, b + 5, b + 1], ⟨0, -1, 0⟩, Material.hull, true⟩,
         ⟨[b + 2, b + 3, b + 7, b + 6], ⟨0, 1, 0⟩, Material.hull, true⟩,
         ⟨[b, b + 2, b + 6, b + 4], ⟨0, 0, -1⟩, Material.hull, true⟩,
         ⟨[b + 1, b + 5, b + 7, b + 3], ⟨0, 0, 1⟩, Material.hull, true⟩] }

/-- The ring of side faces created by a discrete extrusion: one quad per
boundary edge, joining the old boundary to the duplicated boundary. Each is
created with coincident old/new vertices (zero area), so the normal Blender
computes at creation is the zero vector. -/
def sideRing (old : List Nat) (vb k : Nat) (ps : List Vec3) (mat : Material) :
    List MFace :=
  (List.range k).map fun j =>
    let a := old.getD j 0
    let b := old.getD ((j + 1) % k) 0
    let pa := ps.getD j 0
    let pb := ps.getD ((j + 1) % k) 0
    ⟨[a, b, vb + (j + 1) % k, vb + j], polyNormal [pa, pb, pb, pa], mat, true⟩

/-- Model of `bmesh.ops.extrude_discrete_faces(bm, faces=[face])` and the
caller's read of `result["faces"]`: the face's boundary is duplicated (new
vertices at the same positions), a ring of side faces joins old to new, the
input face is consumed, and the list of new cap faces (here one) is
returned. The cap face's cached normal is computed from its geometry at
creation (equal to the consumed face's plane normal); face attributes
(material) are inherited. -/
def bmoExtrudeDiscrete (i : Nat) : GenM (List Nat) := do
  event GEvent.extrudeFaces
  let f ← getFace i
  let ps ← faceVertPositions f
  let s0 ← getState
  let vb := s0.mesh.verts.length
  let fb := s0.mesh.faces.length
  let k := f.verts.length
  invalidateFace i
  modifyMesh fun mesh =>
    { mesh with
      verts := mesh.verts ++ ps,
      faces := mesh.faces ++ sideRing f.verts vb k ps f.material_index ++
        [⟨(List.range k).map (fun j => vb + j), polyNormal ps,
          f.material_index, true⟩] }
  pure [fb + k]

/-- The subdivided boundary ring of a face: each boundary edge split into
`cuts + 1` equal segments. -/
def subdivRing (ps : List Vec3) (cuts : Nat) : List Vec3 :=
  (List.range ps.length).flatMap fun j =>
    (List.range (cuts + 1)).map fun t =>
      lerp (ps.getD j 0) (ps.getD ((j + 1) % ps.length) 0)
        ((t : ℝ) / ((cuts : ℝ) + 1))

/-- Model of `bmesh.ops.subdivide_edges` over one face's edges with
`use_grid_fill`: the boundary is subdivided into `cuts + 1` segments per
edge and the interior is refilled; modelled as the subdivided boundary ring
plus a centre vertex fanned into triangles, the input face consumed, and
the new faces returned (the Python caller filters the heterogeneous
`result["geom"]` for BMFace entries; the model returns exactly the face
part). The real op fills a quad grid and also splits neighbour faces
sharing the edges; the claims observe only that new geometry replaces the
consumed face. The fractal jitter draws Blender-internal noise, not the
Python stream, and is not modelled. -/
def bmoSubdivideFace (i : Nat) (cuts : Nat) : GenM (List Nat) := do
  event GEvent.subdivideEdges
  let f ← getFace i
  let ps ← faceVertPositions f
  let s0 ← getState
  let vb := s0.mesh.verts.length
  let fb := s0.mesh.faces.length
  let ring := subdivRing ps cuts
  let c := centroidOf ps
  let n := f.verts.length * (cuts + 1)
  invalidateFace i
  modifyMesh fun mesh =>
    { mesh with
      verts := mesh.verts ++ ring ++ [c],
      faces := mesh.faces ++ (List.range n).map (fun j =>
        ⟨[vb + j, vb + (j + 1) % n, vb + n],
         polyNormal [ring.getD j 0, ring.getD ((j + 1) % n) 0, c],
         f.material_index, true⟩) }
  pure ((List.range n).map (fun j => fb + j))

/-- Model of `bmesh.ops.create_cone`: records the created primitive (the
cone's own small faces are abstracted into the record) and returns the
created vertex list, which no caller observes beyond binding it, as an
empty list. -/
def bmoCreateCone (segments : ℤ) (diameter1 diameter2 depth : ℝ)
    (matrix : Aff3) : GenM (List Nat) := do
  event GEvent.createCone
  modifyMesh fun mesh =>
    { mesh with
      prims := mesh.prims ++
        [⟨PrimKind.cone, matrix, [(segments : ℝ), diameter1, diameter2, depth]⟩] }
  pure []

/-- Model of `bmesh.ops.create_uvsphere`. -/
def bmoCreateUVSphere (u_segments v_segments : ℤ) (diameter : ℝ)
    (matrix : Aff3) : GenM Unit := do
  event GEvent.createUVSphere
  modifyMesh fun mesh =>
    { mesh with
      prims := mesh.prims ++
        [⟨PrimKind.uvsphere, matrix, [(u_segments : ℝ), (v_segments : ℝ), diameter]⟩] }

/-- Model of `bmesh.ops.create_circle`. -/
def bmoCreateCircle (segments : ℤ) (radius : ℝ) (matrix : Aff3) : GenM Unit := do
  event GEvent.createCircle
  modifyMesh fun mesh =>
    { mesh with
      prims := mesh.prims ++ [⟨PrimKind.circle, matrix, [(segments : ℝ), radius]⟩] }

end Gen

/-! ## mathutils rotation and translation matrices, Python numeric helpers -/

/-- `math.radians`. -/
def radians (d : ℝ) : ℝ := d * Real.pi / 180

/-- Python `int()` on a float: truncation toward zero. -/
def pyInt (x : ℝ) : ℤ := if 0 ≤ x then ⌊x⌋ else -⌊-x⌋

def idMat3 : Mat3 := ⟨⟨1, 0, 0⟩, ⟨0, 1, 0⟩, ⟨0, 0, 1⟩⟩

/-- `mathutils.Matrix.Rotation(angle, 3, "X")`. -/
def matRotX (t : ℝ) : Mat3 :=
  ⟨⟨1, 0, 0⟩, ⟨0, Real.cos t, -Real.sin t⟩, ⟨0, Real.sin t, Real.cos t⟩⟩

/-- `mathutils.Matrix.Rotation(angle, 3, "Y")`. -/
def matRotY (t : ℝ) : Mat3 :=
  ⟨⟨Real.cos t, 0, Real.sin t⟩, ⟨0, 1, 0⟩, ⟨-Real.sin t, 0, Real.cos t⟩⟩

/-- `mathutils.Matrix.Rotation(angle, 3, "Z")`. -/
def matRotZ (t : ℝ) : Mat3 :=
  ⟨⟨Real.cos t, -Real.sin t, 0⟩, ⟨Real.sin t, Real.cos t, 0⟩, ⟨0, 0, 1⟩⟩

/-- `.to_4x4()` on a 3x3 matrix: affine with zero translation. -/
def affOfMat (m : Mat3) : Aff3 := ⟨m, 0⟩

/-- `mathutils.Matrix.Translation(t)`. -/
def matTranslation (t : Vec3) : Aff3 := ⟨idMat3, t⟩

/-- Row times column product of 3x3 matrices. -/
def Mat3.mul (m n : Mat3) : Mat3 :=
  ⟨⟨Vec3.dot m.r0 ⟨n.r0.x, n.r1.x, n.r2.x⟩, Vec3.dot m.r0 ⟨n.r0.y, n.r1.y, n.r2.y⟩,
    Vec3.dot m.r0 ⟨n.r0.z, n.r1.z, n.r2.z⟩⟩,
   ⟨Vec3.dot m.r1 ⟨n.r0.x, n.r1.x, n.r2.x⟩, Vec3.dot m.r1 ⟨n.r0.y, n.r1.y, n.r2.y⟩,
    Vec3.dot m.r1 ⟨n.r0.z, n.r1.z, n.r2.z⟩⟩,
   ⟨Vec3.dot m.r2 ⟨n.r0.x, n.r1.x, n.r2.x⟩, Vec3.dot m.r2 ⟨n.r0.y, n.r1.y, n.r2.y⟩,
    Vec3.dot m.r2 ⟨n.r0.z, n.r1.z, n.r2.z⟩⟩⟩

/-- Composition of affine transforms, the `@` product of 4x4 mathutils
matrices: `(A.comp B).apply v = A.apply (B.apply v)`. -/
def Aff3.comp (A B : Aff3) : Aff3 := ⟨A.L.mul B.L, A.L.mulVec B.t + A.t⟩

/-! ## Mesh-level embedding of geometry.py -/

namespace Gen

open GenM Vec3

/-- Embedding of `geometry.get_face_matrix(face, pos)` over the mesh: reads
`verts[0]`, `verts[1]`, `verts[3]` (IndexError on a face with fewer
vertices, the source's behavior) and builds the frame. -/
def get_face_matrix (i : Nat) (pos : Option Vec3) : GenM Aff3 := do
  let f ← getFace i
  let p0 ← faceVert f 0
  let p1 ← faceVert f 1
  let p3 ← faceVert f 3
  pure (FG.face_matrix_core p0 p1 p3 pos)

/-- Embedding of `geometry.get_face_width_and_height(face)`: lengths of
`v1 - v0` and `v3 - v0`. -/
def get_face_width_and_height (i : Nat) : GenM (ℝ × ℝ) := do
  let f ← getFace i
  let p0 ← faceVert f 0
  let p1 ← faceVert f 1
  let p3 ← faceVert f 3
  pure (vnorm (p1 - p0), vnorm (p3 - p0))

/-- `face.edges[k].calc_length()`: the length of the face's k-th loop edge,
joining loop vertices k and k+1 (cyclically). -/
def edgeLength (f : MFace) (k : Nat) : GenM ℝ := do
  let p ← faceVert f k
  let q ← faceVert f ((k + 1) % f.verts.length)
  pure (vnorm (q - p))

/-- Embedding of `geometry.get_aspect_ratio(face)`: `1.0` for an invalid
face; otherwise the ratio of the first two edge lengths clamped to at least
`0.01`, inverted when below `1.0` so the result is the longer-over-shorter
ratio. The division runs before the clamp, so a zero second edge length
raises ZeroDivisionError (Python float division). -/
def get_aspect_ratio (i : Nat) : GenM ℝ := do
  let f ← getFace i
  if f.isValid = false then pure 1.0
  else do
    let e0 ← edgeLength f 0
    let e1 ← edgeLength f 1
    if e1 = 0 then throwG PyErr.zeroDivisionError
    else do
      let face_aspect_ratio := max 0.01 (e0 / e1)
      pure (if face_aspect_ratio < 1.0 then 1.0 / face_aspect_ratio
            else face_aspect_ratio)

/-- Embedding of `geometry.is_rear_face(face)`: the (cached) normal's x
component is below −0.95. -/
def is_rear_face (f : MFace) : Prop := f.normal.x < -0.95

instance (f : MFace) : Decidable (is_rear_face f) := by
  unfold is_rear_face
  exact Real.decidableLT _ _

/-- Embedding of `geometry.extrude_face(bm, face, translate_forwards,
extruded_face_list)`: discrete-extrudes the face, translates the new cap's
vertices along the cap's own normal by `translate_forwards`, and returns
the new cap face together with the new-face list the optional accumulator
argument would collect (`result["faces"][:]`). -/
def extrude_face (i : Nat) (translate_forwards : ℝ) : GenM (Nat × List Nat) := do
  let new_faces ← bmoExtrudeDiscrete i
  match new_faces with
  | [] => throwG PyErr.indexError
  | new_face :: _ => do
      let nf ← getFace new_face
      bmoTranslate (translate_forwards • nf.normal) nf.verts
      pure (new_face, new_faces)

/-- Embedding of `geometry.scale_face(bm, face, sx, sy, sz)`: the face
matrix is computed, inverted in place (`face_space.invert()`), and the
face's vertices are scaled in that space. -/
def scale_face (i : Nat) (scale_x scale_y scale_z : ℝ) : GenM Unit := do
  let fm ← get_face_matrix i none
  let face_space := fm.inv
  let f ← getFace i
  bmoScaleSpace ⟨scale_x, scale_y, scale_z⟩ face_space f.verts

/-- The rib loop of `geometry.ribbed_extrude_face`. -/
def ribbedLoopM (per_rib rib_scale : ℝ) : Nat → Nat → GenM Nat
  | 0, i => pure i
  | n + 1, i => do
      let (i1, _) ← extrude_face i (per_rib * 0.25)
      let (i2, _) ← extrude_face i1 0
      scale_face i2 rib_scale rib_scale rib_scale
      let (i3, _) ← extrude_face i2 (per_rib * 0.5)
      let (i4, _) ← extrude_face i3 0
      scale_face i4 (1 / rib_scale) (1 / rib_scale) (1 / rib_scale)
      let (i5, _) ← extrude_face i4 (per_rib * 0.25)
      ribbedLoopM per_rib rib_scale n i5

/-- Embedding of `geometry.ribbed_extrude_face(bm, face,
translate_forwards, num_ribs, rib_scale)` over the mesh. -/
def ribbed_extrude_face (i : Nat) (translate_forwards : ℝ) (num_ribs : Nat)
    (rib_scale : ℝ) : GenM Nat := do
  let translate_forwards_per_rib := translate_forwards / (num_ribs : ℝ)
  ribbedLoopM translate_forwards_per_rib rib_scale num_ribs i

/-! ### The seven Detail Generators of geometry.py -/

/-- Set one material on every face of a list (the `for extruded_face in
extruded_face_list` tagging loops). -/
def tagAll (m : Material) : List Nat → GenM Unit
  | [] => pure ()
  | j :: rest => do
      setFaceMaterial j m
      tagAll m rest

/-- The per-subface loop of `add_exhaust_to_face`: each rear-facing subface
is tagged hull_dark, extruded outward by `exhaust_length`, scaled down by
`scale_outer`, extruded back inward by `0.9 * exhaust_length` collecting
the new faces (tagged exhaust_burn), and scaled by `scale_inner`. -/
def exhaustDetailLoop (exhaust_length scale_outer scale_inner : ℝ) :
    List Nat → GenM Unit
  | [] => pure ()
  | j :: rest => do
      let f ← getFace j
      if is_rear_face f then do
        setFaceMaterial j Material.hull_dark
        let (j1, _) ← extrude_face j exhaust_length
        scale_face j1 scale_outer scale_outer scale_outer
        let (j2, extruded_face_list) ← extrude_face j1 (-exhaust_length * 0.9)
        tagAll Material.exhaust_burn extruded_face_list
        scale_face j2 scale_inner scale_inner scale_inner
        exhaustDetailLoop exhaust_length scale_outer scale_inner rest
      else
        exhaustDetailLoop exhaust_length scale_outer scale_inner rest

/-- Embedding of `geometry.add_exhaust_to_face(bm, face)`. The guard is
only the validity check — the vertex count is NOT checked here. -/
def add_exhaust_to_face (i : Nat) : GenM Unit := do
  let f ← getFace i
  if f.isValid = false then pure ()
  else do
    let face_aspect_ratio ← get_aspect_ratio i
    let num_cuts ← pyRandint 1 (pyInt (4 - face_aspect_ratio))
    let newFaces ← bmoSubdivideFace i num_cuts.toNat
    let exhaust_length ← pyUniform 0.1 0.2
    let so ← pyUniform 1.3 1.6
    let scale_outer := 1 / so
    let si ← pyUniform 1.05 1.1
    let scale_inner := 1 / si
    exhaustDetailLoop exhaust_length scale_outer scale_inner newFaces

/-- The per-subface loop of `add_grid_to_face`: a 50/50 draw picks
hull_lights or hull, the subface is extruded outward by `grid_length`
collecting the new faces, which get the drawn material when the new cap's
normal is not near-vertical (|z| < 0.707), and the cap is scaled by 0.8. -/
def gridDetailLoop (grid_length scale : ℝ) : List Nat → GenM Unit
  | [] => pure ()
  | j :: rest => do
      let r ← pyRandom
      let material_index := if r > 0.5 then Material.hull_lights else Material.hull
      let (j1, extruded_face_list) ← extrude_face j grid_length
      let nf ← getFace j1
      if |nf.normal.z| < 0.707 then tagAll material_index extruded_face_list
      else pure ()
      scale_face j1 scale scale scale
      gridDetailLoop grid_length scale rest

/-- Embedding of `geometry.add_grid_to_face(bm, face)`. The guard is only
the validity check — the vertex count is NOT checked here. -/
def add_grid_to_face (i : Nat) : GenM Unit := do
  let f ← getFace i
  if f.isValid = false then pure ()
  else do
    let cuts ← pyRandint 2 4
    let newFaces ← bmoSubdivideFace i cuts.toNat
    let grid_length ← pyUniform 0.025 0.15
    let scale := (0.8 : ℝ)
    gridDetailLoop grid_length scale newFaces

/-- `for x in range(n)` over integers. -/
def intRange (n : ℤ) : List ℤ := (List.range n.toNat).map (fun k => (k : ℤ))

/-- Inner (vertical) loop of `add_cylinders_to_face`. -/
def cylVLoop (i : Nat) (cylinder_size cylinder_depth : ℝ) (num_segments : ℤ)
    (top bottom : Vec3) (vertical_step : ℤ) : List ℤ → GenM Unit
  | [] => pure ()
  | v :: rest => do
      let pos := lerp top bottom (((v : ℝ) + 1) / ((vertical_step : ℝ) + 1))
      let fm ← get_face_matrix i (some pos)
      let cylinder_matrix := fm.comp (affOfMat (matRotX (radians 90)))
      let _ ← bmoCreateCone num_segments cylinder_size cylinder_size
        cylinder_depth cylinder_matrix
      cylVLoop i cylinder_size cylinder_depth num_segments top bottom
        vertical_step rest

/-- Outer (horizontal) loop of `add_cylinders_to_face`. -/
def cylHLoop (i : Nat) (cylinder_size cylinder_depth : ℝ) (num_segments : ℤ)
    (p0 p1 p2 p3 : Vec3) (horizontal_step vertical_step : ℤ) :
    List ℤ → GenM Unit
  | [] => pure ()
  | h :: rest => do
      let top := lerp p0 p1 (((h : ℝ) + 1) / ((horizontal_step : ℝ) + 1))
      let bottom := lerp p3 p2 (((h : ℝ) + 1) / ((horizontal_step : ℝ) + 1))
      cylVLoop i cylinder_size cylinder_depth num_segments top bottom
        vertical_step (intRange vertical_step)
      cylHLoop i cylinder_size cylinder_depth num_segments p0 p1 p2 p3
        horizontal_step vertical_step rest

/-- Embedding of `geometry.add_cylinders_to_face(bm, face)`: no-op for an
invalid face or one with fewer than four vertices; otherwise a grid of
1–3 × 1–3 capped cylinders across the face, oriented along the face
normal, sized against the grid spacing. -/
def add_cylinders_to_face (i : Nat) : GenM Unit := do
  let f ← getFace i
  if f.isValid = false ∨ f.verts.length < 4 then pure ()
  else do
    let horizontal_step ← pyRandint 1 3
    let vertical_step ← pyRandint 1 3
    let num_segments ← pyRandint 6 12
    let wh ← get_face_width_and_height i
    let cylinder_depth := 1.3 * min (wh.1 / ((horizontal_step : ℝ) + 2))
      (wh.2 / ((vertical_step : ℝ) + 2))
    let cylinder_size := cylinder_depth * 0.5
    let p0 ← faceVert f 0
    let p1 ← faceVert f 1
    let p2 ← faceVert f 2
    let p3 ← faceVert f 3
    cylHLoop i cylinder_size cylinder_depth num_segments p0 p1 p2 p3
      horizontal_step vertical_step (intRange horizontal_step)

/-- Inner (vertical) loop of `add_weapons_to_face`: at each grid point a
short wide base cylinder, then a narrower barrel cylinder offset forward
and yawed by a random integer angle of ±45 degrees. -/
def weaponVLoop (i : Nat) (weapon_size weapon_depth : ℝ) (num_segments : ℤ)
    (top bottom : Vec3) (vertical_step : ℤ) : List ℤ → GenM Unit
  | [] => pure ()
  | v :: rest => do
      let pos := lerp top bottom (((v : ℝ) + 1) / ((vertical_step : ℝ) + 1))
      let base_matrix ← get_face_matrix i (some pos)
      let _ ← bmoCreateCone num_segments weapon_size weapon_size weapon_depth
        base_matrix
      let ang ← pyRandint (-45) 45
      let barrel_matrix := (base_matrix.comp
        (matTranslation ⟨0, 0, weapon_depth * 0.5⟩)).comp
        (affOfMat (matRotZ (radians (ang : ℝ))))
      let _ ← bmoCreateCone num_segments (weapon_size * 0.25)
        (weapon_size * 0.25) weapon_size barrel_matrix
      weaponVLoop i weapon_size weapon_depth num_segments top bottom
        vertical_step rest

/-- Outer (horizontal) loop of `add_weapons_to_face`. -/
def weaponHLoop (i : Nat) (weapon_size weapon_depth : ℝ) (num_segments : ℤ)
    (p0 p1 p2 p3 : Vec3) (horizontal_step vertical_step : ℤ) :
    List ℤ → GenM Unit
  | [] => pure ()
  | h :: rest => do
      let top := lerp p0 p1 (((h : ℝ) + 1) / ((horizontal_step : ℝ) + 1))
      let bottom := lerp p3 p2 (((h : ℝ) + 1) / ((horizontal_step : ℝ) + 1))
      weaponVLoop i weapon_size weapon_depth num_segments top bottom
        vertical_step (intRange vertical_step)
      weaponHLoop i weapon_size weapon_depth num_segments p0 p1 p2 p3
        horizontal_step vertical_step rest

/-- Embedding of `geometry.add_weapons_to_face(bm, face)`: no-op for an
invalid face or one with fewer than four vertices. -/
def add_weapons_to_face (i : Nat) : GenM Unit := do
  let f ← getFace i
  if f.isValid = false ∨ f.verts.length < 4 then pure ()
  else do
    let horizontal_step ← pyRandint 1 2
    let vertical_step ← pyRandint 1 2
    let num_segments : ℤ := 16
    let wh ← get_face_width_and_height i
    let weapon_size := 0.5 * min (wh.1 / ((horizontal_step : ℝ) + 2))
      (wh.2 / ((vertical_step : ℝ) + 2))
    let weapon_depth := weapon_size * 0.2
    let p0 ← faceVert f 0
    let p1 ← faceVert f 1
    let p2 ← faceVert f 2
    let p3 ← faceVert f 3
    weaponHLoop i weapon_size weapon_depth num_segments p0 p1 p2 p3
      horizontal_step vertical_step (intRange horizontal_step)

/-- Embedding of `geometry.add_sphere_to_face(bm, face)`: no-op for an
invalid face or one with fewer than four vertices; otherwise one capped
UV-sphere sized to the smaller face dimension, centred half that size above
the face. -/
def add_sphere_to_face (i : Nat) : GenM Unit := do
  let f ← getFace i
  if f.isValid = false ∨ f.verts.length < 4 then pure ()
  else do
    let wh ← get_face_width_and_height i
    let size := min wh.1 wh.2
    let fm ← get_face_matrix i none
    let matrix := fm.comp (matTranslation ⟨0, 0, size * 0.5⟩)
    bmoCreateUVSphere 8 8 size matrix

/-- Embedding of `geometry.add_surface_antenna_to_face(bm, face)`: no-op
for an invalid face or one with fewer than four vertices; otherwise one
cone tapering to a point, height the smaller face dimension, base diameter
half of that. -/
def add_surface_antenna_to_face (i : Nat) : GenM Unit := do
  let f ← getFace i
  if f.isValid = false ∨ f.verts.length < 4 then pure ()
  else do
    let wh ← get_face_width_and_height i
    let size := min wh.1 wh.2
    let fm ← get_face_matrix i none
    let matrix := fm.comp (matTranslation ⟨0, 0, size * 0.5⟩)
    let _ ← bmoCreateCone 8 (size * 0.5) 0 size matrix
    pure ()

/-- Embedding of `geometry.add_disc_to_face(bm, face)`: no-op for an
invalid face or one with fewer than four vertices; otherwise one open
circle flush with the face, radius half the smaller face dimension. -/
def add_disc_to_face (i : Nat) : GenM Unit := do
  let f ← getFace i
  if f.isValid = false ∨ f.verts.length < 4 then pure ()
  else do
    let wh ← get_face_width_and_height i
    let size := min wh.1 wh.2
    let matrix ← get_face_matrix i none
    bmoCreateCircle 32 (size * 0.5) matrix

end Gen

/-! ### Embedding of generator.generate_spaceship -/

/-- The named parameters of `generate_spaceship`, with the source's
defaults; an immutable record per call (the spec's Generation Config). -/
structure Config where
  random_seed : String := ""
  num_hull_segments_min : ℤ := 3
  num_hull_segments_max : ℤ := 6
  create_asymmetry_segments : Bool := true
  num_asymmetry_segments_min : ℤ := 1
  num_asymmetry_segments_max : ℤ := 5
  create_face_detail : Bool := true
  allow_horizontal_symmetry : Bool := true
  allow_vertical_symmetry : Bool := false
  apply_bevel_modifier : Bool := true
  assign_materials : Bool := true

/-- What a completed run returns: the committed mesh (`bm.to_mesh`) and the
finalization flags (mirror axes, bevel, material assignment — the modifier
and shader construction itself is external to the core). -/
structure GenOutput where
  mesh : Mesh
  mirror_horizontal : Bool
  mirror_vertical : Bool
  bevel : Bool
  materials_assigned : Bool

/-- Face count of the committed mesh (only live faces are exported). -/
def faceCount (o : GenOutput) : Nat :=
  (o.mesh.faces.filter (fun f => f.isValid)).length

/-- The material tag of each committed face, in face order. -/
def materialTags (o : GenOutput) : List Material :=
  (o.mesh.faces.filter (fun f => f.isValid)).map (fun f => f.material_index)

/-- The vertex positions of the committed mesh. -/
def vertexPositions (o : GenOutput) : List Vec3 := o.mesh.verts

namespace Gen

open GenM Vec3

/-- Indices of the live faces in index order: the snapshot a Python
`bm.faces[:]` takes (consumed faces are no longer in the bmesh sequence). -/
def aliveIdxAux : List MFace → Nat → List Nat
  | [], _ => []
  | f :: rest, j =>
      if f.isValid then j :: aliveIdxAux rest (j + 1) else aliveIdxAux rest (j + 1)

def aliveFaces : GenM (List Nat) := fun s =>
  (Except.ok (aliveIdxAux s.mesh.faces 0), s)

/-- All vertex indices (`bm.verts`). -/
def allVertIdx (m : Mesh) : List Nat := List.range m.verts.length

/-- Componentwise centre of the bounding box of a list of positions
(`face.calc_center_bounds()`). -/
def boundsCenter : List Vec3 → Vec3
  | [] => 0
  | p :: rest =>
      ⟨(rest.foldl (fun a q => min a q.x) p.x + rest.foldl (fun a q => max a q.x) p.x) / 2,
       (rest.foldl (fun a q => min a q.y) p.y + rest.foldl (fun a q => max a q.y) p.y) / 2,
       (rest.foldl (fun a q => min a q.z) p.z + rest.foldl (fun a q => max a q.z) p.z) / 2⟩

/-- `face.calc_center_bounds()`. -/
def calc_center_bounds (f : MFace) : GenM Vec3 := do
  let ps ← faceVertPositions f
  pure (boundsCenter ps)

/-- The lateral-nudge vector of the smooth hull segment (generator.py lines
80–85): `Vector((0, 0, uniform(0.1, 0.4) * scale_vector.z *
hull_segment_length))`, negated on a 50/50 draw. -/
def sideways_translation_vec (scale_vector : Vec3) (hull_segment_length : ℝ) :
    GenM Vec3 := do
  let u ← pyUniform 0.1 0.4
  let v : Vec3 := ⟨0, 0, u * scale_vector.z * hull_segment_length⟩
  let r ← pyRandom
  pure (if r > 0.5 then -v else v)

/-- The lateral-nudge branch body: the vector above applied with
`bmesh.ops.translate` to the current face's vertices. -/
def hull_nudge (scale_vector : Vec3) (hull_segment_length : ℝ) (i : Nat) :
    GenM Unit := do
  let sideways_translation ← sideways_translation_vec scale_vector hull_segment_length
  let f ← getFace i
  bmoTranslate sideways_translation f.verts

/-- The roll angle of the smooth hull segment (generator.py lines 88–91):
5 degrees, negated on a 50/50 draw. -/
def hull_roll_angle : GenM ℝ := do
  let r ← pyRandom
  pure (if r > 0.5 then -(5 : ℝ) else 5)

/-- The roll branch body (generator.py lines 88–97): `bmesh.ops.rotate`
applied to the current face's vertices with `cent=(0, 0, 0)` and
`Matrix.Rotation(radians(angle), 3, "Y")` — a rotation about the world Y
axis through the world origin. -/
def hull_roll (i : Nat) : GenM Unit := do
  let angle ← hull_roll_angle
  let f ← getFace i
  bmoRotate ⟨0, 0, 0⟩ (matRotY (radians angle)) f.verts

/-- One smooth hull segment (the `val > 0.1` branch of generator.py lines
67–97): extrude forward; 25% chance of an extra quarter extrusion; 50%
chance of a non-uniform cross-section scale (inverted when this is the
last segment — short-circuit: no draw then — or on a further 50/50 draw);
50% chance of the lateral nudge; 50% chance of the roll. Returns the new
current face. -/
def smoothSegment (scale_vector : Vec3) (hull_segment_length : ℝ)
    (is_last_hull_segment : Bool) (i : Nat) : GenM Nat := do
  let (f1, _) ← extrude_face i hull_segment_length
  let r1 ← pyRandom
  let f2 ← (if r1 > 0.75 then do
      let (f2, _) ← extrude_face f1 (hull_segment_length * 0.25)
      pure f2
    else pure f1)
  let r2 ← pyRandom
  if r2 > 0.5 then do
    let sy0 ← pyUniform 1.2 1.5
    let sz0 ← pyUniform 1.2 1.5
    let flip ← (if is_last_hull_segment then pure true
      else do
        let r3 ← pyRandom
        pure (r3 > 0.5))
    let sy := if flip then 1 / sy0 else sy0
    let sz := if flip then 1 / sz0 else sz0
    scale_face f2 1 sy sz
  else pure ()
  let r4 ← pyRandom
  if r4 > 0.5 then hull_nudge scale_vector hull_segment_length f2
  else pure ()
  let r5 ← pyRandom
  if r5 > 0.5 then hull_roll f2
  else pure ()
  pure f2

/-- The per-face segment loop (generator.py lines 64–102): each iteration
draws `val`; above 0.1 a smooth segment, otherwise a ribbed segment with
rib scale uniform(0.75, 0.95) and 2–4 ribs. The running face is updated so
segments chain. -/
def hullSegmentLoop (scale_vector : Vec3) (hull_segment_length : ℝ)
    (total : Nat) : List Nat → Nat → GenM Nat
  | [], i => pure i
  | step :: rest, i => do
      let is_last_hull_segment := step == total - 1
      let val ← pyRandom
      if val > 0.1 then do
        let i2 ← smoothSegment scale_vector hull_segment_length
          is_last_hull_segment i
        hullSegmentLoop scale_vector hull_segment_length total rest i2
      else do
        let rib_scale ← pyUniform 0.75 0.95
        let nr ← pyRandint 2 4
        let i2 ← ribbed_extrude_face i hull_segment_length nr.toNat rib_scale
        hullSegmentLoop scale_vector hull_segment_length total rest i2

/-- Hull growth for one snapshot face (generator.py lines 59–102): only
faces whose cached normal has |x| > 0.5 grow; the per-face base segment
length and the segment count are drawn once before the segment loop. -/
def hullFace (cfg : Config) (scale_vector : Vec3) (i : Nat) : GenM Unit := do
  let f ← getFace i
  if |f.normal.x| > 0.5 then do
    let hull_segment_length ← pyUniform 0.3 1
    let num_hull_segments ← pyRandint cfg.num_hull_segments_min
      cfg.num_hull_segments_max
    let n := num_hull_segments.toNat
    let _ ← hullSegmentLoop scale_vector hull_segment_length n (List.range n) i
    pure ()
  else pure ()

def hullLoop (cfg : Config) (scale_vector : Vec3) : List Nat → GenM Unit
  | [] => pure ()
  | i :: rest => do
      hullFace cfg scale_vector i
      hullLoop cfg scale_vector rest

/-- The asymmetry protrusion chain (generator.py lines 110–114). -/
def asymmetrySegments (hull_piece_length : ℝ) : Nat → Nat → GenM Nat
  | 0, i => pure i
  | n + 1, i => do
      let (i2, _) ← extrude_face i hull_piece_length
      let r ← pyRandom
      if r > 0.25 then do
        let su ← pyUniform 1.1 1.5
        let s := 1 / su
        scale_face i2 s s s
        asymmetrySegments hull_piece_length n i2
      else asymmetrySegments hull_piece_length n i2

/-- The asymmetry pass for one snapshot face (generator.py lines 105–114):
faces with aspect ratio above 4 are skipped; with probability 0.15 a chain
of small forward extrusions grows, each with a 75% chance of a uniform
shrink. -/
def asymmetryFace (cfg : Config) (i : Nat) : GenM Unit := do
  let ar ← get_aspect_ratio i
  if ar > 4 then pure ()
  else do
    let r ← pyRandom
    if r > 0.85 then do
      let hull_piece_length ← pyUniform 0.1 0.4
      let cnt ← pyRandint cfg.num_asymmetry_segments_min
        cfg.num_asymmetry_segments_max
      let _ ← asymmetrySegments hull_piece_length cnt.toNat i
      pure ()
    else pure ()

def asymmetryLoop (cfg : Config) : List Nat → GenM Unit
  | [] => pure ()
  | i :: rest => do
      asymmetryFace cfg i
      asymmetryLoop cfg rest

/-- The seven classification buckets (generator.py lines 117–123). -/
structure Buckets where
  engine_faces : List Nat
  grid_faces : List Nat
  antenna_faces : List Nat
  weapon_faces : List Nat
  sphere_faces : List Nat
  disc_faces : List Nat
  cylinder_faces : List Nat

def emptyBuckets : Buckets := ⟨[], [], [], [], [], [], []⟩

/-- One step of the detail classification pass (generator.py lines
124–166): faces with aspect ratio above 3 are skipped; one draw `val`
then a fixed decision tree on the cached face normal. The first rear face
is forced into the engine bucket (`not engine_faces or val > 0.75`)
regardless of its draw. -/
def classifyFace (i : Nat) (b : Buckets) : GenM Buckets := do
  let ar ← get_aspect_ratio i
  if ar > 3 then pure b
  else do
    let val ← pyRandom
    let f ← getFace i
    if is_rear_face f then
      if b.engine_faces = [] ∨ val > 0.75 then
        pure { b with engine_faces := b.engine_faces ++ [i] }
      else if val > 0.5 then
        pure { b with cylinder_faces := b.cylinder_faces ++ [i] }
      else if val > 0.25 then
        pure { b with grid_faces := b.grid_faces ++ [i] }
      else do
        setFaceMaterial i Material.hull_lights
        pure b
    else if f.normal.x > 0.9 then do
      let c ← calc_center_bounds f
      if dot f.normal c > 0 ∧ val > 0.7 then do
        setFaceMaterial i Material.hull_lights
        pure { b with antenna_faces := b.antenna_faces ++ [i] }
      else if val > 0.4 then
        pure { b with grid_faces := b.grid_faces ++ [i] }
      else do
        setFaceMaterial i Material.hull_lights
        pure b
    else if f.normal.z > 0.9 then do
      let c ← calc_center_bounds f
      if dot f.normal c > 0 ∧ val > 0.7 then do
        setFaceMaterial i Material.hull_lights
        pure { b with antenna_faces := b.antenna_faces ++ [i] }
      else if val > 0.6 then
        pure { b with grid_faces := b.grid_faces ++ [i] }
      else if val > 0.3 then
        pure { b with cylinder_faces := b.cylinder_faces ++ [i] }
      else pure b
    else if f.normal.z < -0.9 then
      if val > 0.75 then
        pure { b with disc_faces := b.disc_faces ++ [i] }
      else if val > 0.5 then
        pure { b with grid_faces := b.grid_faces ++ [i] }
      else if val > 0.25 then
        pure { b with weapon_faces := b.weapon_faces ++ [i] }
      else pure b
    else if val > 0.9 then
      pure { b with sphere_faces := b.sphere_faces ++ [i] }
    else if val > 0.6 then
      pure { b with grid_faces := b.grid_faces ++ [i] }
    else if val > 0.3 then
      pure { b with cylinder_faces := b.cylinder_faces ++ [i] }
    else pure b

def classifyLoop : List Nat → Buckets → GenM Buckets
  | [], b => pure b
  | i :: rest, b => do
      let b2 ← classifyFace i b
      classifyLoop rest b2

def forEachFace (g : Nat → GenM Unit) : List Nat → GenM Unit
  | [] => pure ()
  | i :: rest => do
      g i
      forEachFace g rest

/-- Disc faces are tagged glow_disc just before the disc detailer runs
(generator.py lines 178–180). -/
def processDisc : List Nat → GenM Unit
  | [] => pure ()
  | i :: rest => do
      setFaceMaterial i Material.glow_disc
      add_disc_to_face i
      processDisc rest

/-- Bucket processing in the fixed order engine, grid, antenna, weapon,
sphere, disc, cylinder (generator.py lines 168–182). -/
def processBuckets (b : Buckets) : GenM Unit := do
  forEachFace add_exhaust_to_face b.engine_faces
  forEachFace add_grid_to_face b.grid_faces
  forEachFace add_surface_antenna_to_face b.antenna_faces
  forEachFace add_weapons_to_face b.weapon_faces
  forEachFace add_sphere_to_face b.sphere_faces
  processDisc b.disc_faces
  forEachFace add_cylinders_to_face b.cylinder_faces

/-- Embedding of `generator.generate_spaceship(...)`: seed the stream when
a nonempty seed string is supplied (Python `if random_seed:` — an empty
string is falsy and leaves the ambient stream in place); fresh bmesh; unit
cube scaled by three uniform(0.75, 2.0) draws; hull growth per snapshot
face; optional asymmetry pass; optional classification pass and bucket
processing; then the finalize step commits the mesh and records the
modifier/material flags. -/
def generate_spaceship (cfg : Config) : GenM GenOutput := do
  if cfg.random_seed ≠ "" then setRng (seedRNG cfg.random_seed)
  else pure ()
  modifyMesh (fun _ => emptyMesh)
  bmoCreateCube 1
  let sx ← pyUniform 0.75 2.0
  let sy ← pyUniform 0.75 2.0
  let sz ← pyUniform 0.75 2.0
  let scale_vector : Vec3 := ⟨sx, sy, sz⟩
  let s0 ← getState
  bmoScale scale_vector (allVertIdx s0.mesh)
  let snapshot ← aliveFaces
  hullLoop cfg scale_vector snapshot
  if cfg.create_asymmetry_segments then do
    let snap2 ← aliveFaces
    asymmetryLoop cfg snap2
  else pure ()
  if cfg.create_face_detail then do
    let snap3 ← aliveFaces
    let buckets ← classifyLoop snap3 emptyBuckets
    processBuckets buckets
  else pure ()
  let sF ← getState
  pure ⟨sF.mesh, cfg.allow_horizontal_symmetry, cfg.allow_vertical_symmetry,
        cfg.apply_bevel_modifier, cfg.assign_materials⟩

end Gen

/-- A full run of the generator: `generate_spaceship` started on a fresh
interpreter state whose random stream is the ambient process-wide stream
`g` (the run itself replaces it through `random.seed` when the config
carries a nonempty seed string). -/
def runGenerate (g : RNG) (cfg : Config) : Except PyErr GenOutput × GState :=
  Gen.generate_spaceship cfg ⟨emptyMesh, g, []⟩

/-! ## Run lemmas for the effect monad -/

namespace GenM

theorem bindG_ok {α β : Type} {m : GenM α} {g : α → GenM β} {s t : GState}
    {a : α} (h : m s = (Except.ok a, t)) : bindG m g s = g a t := by
  unfold bindG
  rw [h]

theorem bindG_err {α β : Type} {m : GenM α} {g : α → GenM β} {s t : GState}
    {e : PyErr} (h : m s = (Except.error e, t)) :
    bindG m g s = (Except.error e, t) := by
  unfold bindG
  rw [h]

theorem pureG_apply {α : Type} (a : α) (s : GState) : pureG a s = (Except.ok a, s) := rfl

theorem getFace_ok {s : GState} {i : Nat} {f : MFace}
    (h : s.mesh.faces.get? i = some f) : getFace i s = (Except.ok f, s) := by
  unfold getFace
  rw [h]

end GenM

/-! ## Fixtures used by the closed witnesses and counterexamples -/

/-- A constant ambient random stream. -/
def zeroRNG : RNG := ⟨fun _ => 0, 0⟩

/-- A unit-square quad face over four vertices, valid, default material. -/
def quadMesh : Mesh :=
  ⟨[⟨0, 0, 0⟩, ⟨1, 0, 0⟩, ⟨1, 1, 0⟩, ⟨0, 1, 0⟩],
   [⟨[0, 1, 2, 3], ⟨0, 0, 1⟩, Material.hull, true⟩], []⟩

def quadState : GState := ⟨quadMesh, zeroRNG, []⟩

/-- A quad face whose second loop edge is degenerate (vertices 1 and 2
coincide). -/
def degenMesh : Mesh :=
  ⟨[⟨0, 0, 0⟩, ⟨1, 0, 0⟩, ⟨1, 0, 0⟩, ⟨0, 1, 0⟩],
   [⟨[0, 1, 2, 3], ⟨0, 0, 1⟩, Material.hull, true⟩], []⟩

def degenState : GState := ⟨degenMesh, zeroRNG, []⟩

/-! ## Claims -/

/-- The longer-over-shorter ratio `get_aspect_ratio` computes from two edge
lengths is at least one (the clamp keeps the pre-inversion ratio at least
0.01, so the inverted branch exceeds one). -/
theorem aspect_core_ge_one (e0 e1 : ℝ) :
    1 ≤ (if max 0.01 (e0 / e1) < 1.0 then 1.0 / max 0.01 (e0 / e1)
         else max 0.01 (e0 / e1)) := by
  have hqpos : (0 : ℝ) < max 0.01 (e0 / e1) :=
    lt_of_lt_of_le (by norm_num) (le_max_left _ _)
  by_cases h : max 0.01 (e0 / e1) < 1.0
  · rw [if_pos h, le_div_iff₀ hqpos]
    linarith
  · rw [if_neg h]
    linarith [not_lt.mp h]

/-- C7: for every face with two positive finite edge lengths,
`get_aspect_ratio` returns a value at least 1.0; and for every invalid
(already consumed) face it returns exactly 1.0. -/
theorem C7_aspect_ratio_ge_one (st : GState) (i : Nat) (f : MFace) (e0 e1 : ℝ)
    (hf : st.mesh.faces.get? i = some f) :
    (f.isValid = true →
      Gen.edgeLength f 0 st = (Except.ok e0, st) →
      Gen.edgeLength f 1 st = (Except.ok e1, st) →
      0 < e0 → 0 < e1 →
      ∃ r, Gen.get_aspect_ratio i st = (Except.ok r, st) ∧ 1 ≤ r) ∧
    (f.isValid = false → Gen.get_aspect_ratio i st = (Except.ok 1, st)) := by
  constructor
  · intro hv h0 h1 he0 he1
    refine ⟨_, ?_, aspect_core_ge_one e0 e1⟩
    unfold Gen.get_aspect_ratio
    simp only [GenM.bind_def, GenM.pure_def]
    rw [GenM.bindG_ok (GenM.getFace_ok hf), hv]
    rw [if_neg (by simp)]
    rw [GenM.bindG_ok h0, GenM.bindG_ok h1]
    rw [if_neg (ne_of_gt he1)]
    rfl
  · intro hv
    unfold Gen.get_aspect_ratio
    simp only [GenM.bind_def, GenM.pure_def]
    rw [GenM.bindG_ok (GenM.getFace_ok hf), hv]
    rw [if_pos rfl]
    show (Except.ok (1.0 : ℝ), st) = (Except.ok (1 : ℝ), st)
    norm_num

/-- C7 witness: on a concrete unit-square face both edge lengths are 1 and
the aspect ratio comes out at least 1. -/
theorem C7_aspect_ratio_witness :
    ∃ r, Gen.get_aspect_ratio 0 quadState = (Except.ok r, quadState) ∧ 1 ≤ r := by
  have h := C7_aspect_ratio_ge_one quadState 0
    ⟨[0, 1, 2, 3], ⟨0, 0, 1⟩, Material.hull, true⟩ 1 1 rfl
  refine h.1 rfl ?_ ?_ one_pos one_pos
  · show Gen.edgeLength _ 0 quadState = _
    unfold Gen.edgeLength
    simp only [GenM.bind_def, GenM.pure_def]
    norm_num [GenM.bindG, GenM.faceVert, GenM.getVert, GenM.pureG, quadState,
      quadMesh, Vec3.vnorm, Vec3.dot]
  · show Gen.edgeLength _ 1 quadState = _
    unfold Gen.edgeLength
    simp only [GenM.bind_def, GenM.pure_def]
    norm_num [GenM.bindG, GenM.faceVert, GenM.getVert, GenM.pureG, quadState,
      quadMesh, Vec3.vnorm, Vec3.dot]

/-- C10: `get_aspect_ratio` divides by the second edge length unguarded:
on every valid face whose second loop edge has length zero the call raises
ZeroDivisionError; the max(0.01, ...) clamp sits after the division and
does not protect it. -/
theorem C10_aspect_ratio_div_by_zero (st : GState) (i : Nat) (f : MFace)
    (e0 : ℝ) (hf : st.mesh.faces.get? i = some f) (hv : f.isValid = true)
    (h0 : Gen.edgeLength f 0 st = (Except.ok e0, st))
    (h1 : Gen.edgeLength f 1 st = (Except.ok 0, st)) :
    Gen.get_aspect_ratio i st = (Except.error PyErr.zeroDivisionError, st) := by
  unfold Gen.get_aspect_ratio
  simp only [GenM.bind_def, GenM.pure_def]
  rw [GenM.bindG_ok (GenM.getFace_ok hf), hv]
  rw [if_neg (by simp)]
  rw [GenM.bindG_ok h0, GenM.bindG_ok h1]
  rw [if_pos rfl]
  rfl

/-- A stream whose first draw is one half and all later draws are zero. -/
def halfRNG : RNG := ⟨fun n => if n = 0 then 1 / 2 else 0, 0⟩

/-- A bare state carrying only the half-then-zero stream. -/
def nudgeState : GState := ⟨emptyMesh, halfRNG, []⟩

/-- C6 counterexample input: the hull's Z scale factor is 2, the segment
length 1, and the uniform draw is the stream value one half. -/
def nudgeScaleVector : Vec3 := ⟨1, 1, 2⟩

/-- C6 counterexample: with Z scale factor 2 and segment length 1, the
drawn uniform(0.1, 0.4) value is 0.25 but the applied Z translation is
0.5 — the magnitude is NOT the uniform draw times the segment length (the
code multiplies in `scale_vector.z` as well). -/
theorem C6_nudge_counterexample :
    (Gen.sideways_translation_vec nudgeScaleVector 1 nudgeState).1 =
      Except.ok (⟨0, 0, 1 / 2⟩ : Vec3) ∧
    |((⟨0, 0, 1 / 2⟩ : Vec3)).z| ≠ (0.1 + (0.4 - 0.1) * (1 / 2 : ℝ)) * 1 := by
  constructor
  · unfold Gen.sideways_translation_vec
    simp only [GenM.bind_def, GenM.pure_def]
    norm_num [GenM.bindG, GenM.pureG, GenM.pyUniform, GenM.pyRandom, GenM.draw,
      nudgeState, halfRNG, nudgeScaleVector]
  · show |(1 / 2 : ℝ)| ≠ _
    rw [abs_of_nonneg (by norm_num : (0 : ℝ) ≤ 1 / 2)]
    norm_num

/-- C6 amended: in the lateral-nudge branch the translation vector has zero
x and y components and its z magnitude equals the uniform(0.1, 0.4) draw
times the hull's Z scale factor times the segment length (between 10% and
40% of `scale_vector.z * hull_segment_length`); the 50/50 second draw only
flips the sign. -/
theorem C6_nudge_magnitude (sv : Vec3) (seg : ℝ) (st : GState)
    (hz : 0 < sv.z) (hL : 0 < seg) (hr0 : 0 ≤ st.rng.stream st.rng.k)
    (hr1 : st.rng.stream st.rng.k ≤ 1) :
    ∃ v st2, Gen.sideways_translation_vec sv seg st = (Except.ok v, st2) ∧
      v.x = 0 ∧ v.y = 0 ∧
      |v.z| = (0.1 + (0.4 - 0.1) * st.rng.stream st.rng.k) * sv.z * seg ∧
      0.1 * (sv.z * seg) ≤ |v.z| ∧ |v.z| ≤ 0.4 * (sv.z * seg) ∧
      (v.z = (0.1 + (0.4 - 0.1) * st.rng.stream st.rng.k) * sv.z * seg ∨
       v.z = -((0.1 + (0.4 - 0.1) * st.rng.stream st.rng.k) * sv.z * seg)) := by
  set r0 := st.rng.stream st.rng.k with hr0def
  have hupos : 0 < 0.1 + (0.4 - 0.1) * r0 := by nlinarith
  have habs : |(0.1 + (0.4 - 0.1) * r0) * sv.z * seg|
      = (0.1 + (0.4 - 0.1) * r0) * sv.z * seg := by
    have : 0 ≤ (0.1 + (0.4 - 0.1) * r0) * sv.z * seg := by positivity
    exact abs_of_nonneg this
  by_cases hb : st.rng.stream (st.rng.k + 1) > 0.5
  · refine ⟨⟨-0, -0, -((0.1 + (0.4 - 0.1) * r0) * sv.z * seg)⟩,
      { st with rng := ⟨st.rng.stream, st.rng.k + 1 + 1⟩ }, ?_, ?_, ?_, ?_, ?_, ?_, ?_⟩
    · show (Except.ok (if st.rng.stream (st.rng.k + 1) > 0.5 then
          -(⟨0, 0, (0.1 + (0.4 - 0.1) * st.rng.stream st.rng.k) * sv.z * seg⟩ : Vec3)
          else ⟨0, 0, (0.1 + (0.4 - 0.1) * st.rng.stream st.rng.k) * sv.z * seg⟩),
        ({ st with rng := ⟨st.rng.stream, st.rng.k + 1 + 1⟩ } : GState)) = _
      rw [if_pos hb]
      rfl
    · norm_num
    · norm_num
    · show |-((0.1 + (0.4 - 0.1) * r0) * sv.z * seg)| = _
      rw [abs_neg, habs]
    · rw [abs_neg, habs]
      nlinarith [mul_nonneg (mul_nonneg (by linarith : (0 : ℝ) ≤ 0.3 * r0) hz.le) hL.le]
    · rw [abs_neg, habs]
      nlinarith [mul_nonneg (mul_nonneg
        (by linarith : (0 : ℝ) ≤ 0.3 * (1 - r0)) hz.le) hL.le]
    · right
      rfl
  · refine ⟨⟨0, 0, (0.1 + (0.4 - 0.1) * r0) * sv.z * seg⟩,
      { st with rng := ⟨st.rng.stream, st.rng.k + 1 + 1⟩ }, ?_, ?_, ?_, ?_, ?_, ?_, ?_⟩
    · show (Except.ok (if st.rng.stream (st.rng.k + 1) > 0.5 then
          -(⟨0, 0, (0.1 + (0.4 - 0.1) * st.rng.stream st.rng.k) * sv.z * seg⟩ : Vec3)
          else ⟨0, 0, (0.1 + (0.4 - 0.1) * st.rng.stream st.rng.k) * sv.z * seg⟩),
        ({ st with rng := ⟨st.rng.stream, st.rng.k + 1 + 1⟩ } : GState)) = _
      rw [if_neg hb]
    · rfl
    · rfl
    · show |(0.1 + (0.4 - 0.1) * r0) * sv.z * seg| = _
      rw [habs]
    · rw [habs]
      nlinarith [mul_nonneg (mul_nonneg (by linarith : (0 : ℝ) ≤ 0.3 * r0) hz.le) hL.le]
    · rw [habs]
      nlinarith [mul_nonneg (mul_nonneg
        (by linarith : (0 : ℝ) ≤ 0.3 * (1 - r0)) hz.le) hL.le]
    · left
      rfl

/-- C6 witness: the amended statement applied to the concrete Z scale
factor 2, segment length 1 and the half-then-zero stream. -/
theorem C6_nudge_magnitude_witness :
    ∃ v st2, Gen.sideways_translation_vec nudgeScaleVector 1 nudgeState =
        (Except.ok v, st2) ∧
      v.x = 0 ∧ v.y = 0 ∧
      |v.z| = (0.1 + (0.4 - 0.1) * nudgeState.rng.stream nudgeState.rng.k) *
        nudgeScaleVector.z * 1 ∧
      0.1 * (nudgeScaleVector.z * 1) ≤ |v.z| ∧
      |v.z| ≤ 0.4 * (nudgeScaleVector.z * 1) ∧
      (v.z = (0.1 + (0.4 - 0.1) * nudgeState.rng.stream nudgeState.rng.k) *
          nudgeScaleVector.z * 1 ∨
       v.z = -((0.1 + (0.4 - 0.1) * nudgeState.rng.stream nudgeState.rng.k) *
          nudgeScaleVector.z * 1)) :=
  C6_nudge_magnitude nudgeScaleVector 1 nudgeState (by norm_num [nudgeScaleVector])
    one_pos (by norm_num [nudgeState, halfRNG]) (by norm_num [nudgeState, halfRNG])

theorem Mat3.mulVec_zero (m : Mat3) : m.mulVec 0 = 0 := by
  refine Vec3.ext_iff2 ?_ ?_ ?_ <;> simp [Mat3.mulVec, Vec3.dot]

/-- The spec's reading of the hull roll (refinement target, built from the
spec's words "a small ±5° roll rotation about the local Y axis", performed
in the face's local frame — not from the source): the Y rotation conjugated
through the face's frame matrix, so in particular the face origin stays
fixed. -/
def localYRollSpec (q : FG.Quad) (angle : ℝ) (v : Vec3) : Vec3 :=
  let M := FG.get_face_matrix q none
  M.apply ((matRotY angle).mulVec (M.inv.apply v))

/-- A local-frame roll fixes the face's origin vertex, whatever the face
and angle. -/
theorem localYRollSpec_fixes_origin (q : FG.Quad) (angle : ℝ) :
    localYRollSpec q angle q.v0 = q.v0 := by
  show (FG.get_face_matrix q none).apply ((matRotY angle).mulVec
    ((FG.get_face_matrix q none).inv.apply q.v0)) = q.v0
  set M := FG.get_face_matrix q none with hM
  have ht : M.t = q.v0 := rfl
  have h0 : M.inv.apply q.v0 = 0 := by
    show M.L.inv.mulVec q.v0 + -(M.L.inv.mulVec M.t) = 0
    rw [ht]
    exact add_neg_cancel _
  rw [h0, Mat3.mulVec_zero]
  show M.L.mulVec 0 + M.t = q.v0
  rw [Mat3.mulVec_zero, ht, zero_add]

/-- A unit square lying in the plane z = 1 (its frame origin is off the
world origin), plus the state holding it. -/
def rollMesh : Mesh :=
  ⟨[⟨0, 0, 1⟩, ⟨1, 0, 1⟩, ⟨1, 1, 1⟩, ⟨0, 1, 1⟩],
   [⟨[0, 1, 2, 3], ⟨0, 0, 1⟩, Material.hull, true⟩], []⟩

def rollState : GState := ⟨rollMesh, zeroRNG, []⟩

def rollQuad : FG.Quad := ⟨⟨0, 0, 1⟩, ⟨1, 0, 1⟩, ⟨1, 1, 1⟩, ⟨0, 1, 1⟩⟩

/-- C5 counterexample: on a face lying in the plane z = 1 the roll branch
moves the face origin vertex (0,0,1) to (sin 5°, 0, cos 5°) — it rotates
about the world Y axis through the world origin — while a roll performed in
the face's local frame about the local Y axis would keep that vertex fixed;
the two disagree. -/
theorem C5_roll_counterexample :
    (Gen.hull_roll 0 rollState).2.mesh.verts.getD 0 0 =
      ⟨Real.sin (radians 5), 0, Real.cos (radians 5)⟩ ∧
    localYRollSpec rollQuad (radians 5) ⟨0, 0, 1⟩ = ⟨0, 0, 1⟩ ∧
    (⟨Real.sin (radians 5), 0, Real.cos (radians 5)⟩ : Vec3) ≠ ⟨0, 0, 1⟩ := by
  refine ⟨?_, localYRollSpec_fixes_origin rollQuad (radians 5), ?_⟩
  · unfold Gen.hull_roll Gen.hull_roll_angle Gen.bmoRotate
    simp only [GenM.bind_def, GenM.pure_def]
    norm_num [GenM.bindG, GenM.pureG, GenM.event, GenM.modifyMesh, GenM.getFace,
      GenM.pyRandom, GenM.draw, rollState, rollMesh, zeroRNG, Gen.mapVertsAt]
    refine Vec3.ext_iff2 ?_ ?_ ?_ <;>
      simp [matRotY, Mat3.mulVec, Vec3.dot]
  · intro h
    have hx := congrArg Vec3.x h
    simp only at hx
    have hpos : 0 < Real.sin (radians 5) := by
      apply Real.sin_pos_of_pos_of_lt_pi
      · unfold radians
        positivity
      · unfold radians
        nlinarith [Real.pi_pos]
    rw [hx] at hpos
    exact lt_irrefl 0 hpos

/-- C5 amended: the roll branch applies, to every vertex of the current
face, the rotation `Matrix.Rotation(±radians(5), 3, "Y")` about
`cent = (0, 0, 0)` — the world Y axis through the world origin, independent
of the face's frame; the drawn sign decides between +5 and −5 degrees, and
the applied rotation fixes every point of the world Y axis pointwise. -/
theorem C5_roll_world_y_axis (st : GState) (i : Nat) (f : MFace)
    (hf : st.mesh.faces.get? i = some f) :
    ∃ t0 : ℝ, (t0 = radians 5 ∨ t0 = radians (-5)) ∧
      (st.rng.stream st.rng.k > 0.5 → t0 = radians (-5)) ∧
      (¬st.rng.stream st.rng.k > 0.5 → t0 = radians 5) ∧
      Gen.hull_roll i st = (Except.ok (),
        { st with
          mesh := { st.mesh with verts :=
            (Gen.mapVertsAt
              (fun v => (matRotY t0).mulVec (v - ⟨0, 0, 0⟩) + ⟨0, 0, 0⟩)
              f.verts st.mesh.verts 0) },
          rng := ⟨st.rng.stream, st.rng.k + 1⟩,
          trace := st.trace ++ [GEvent.rotateVerts] }) ∧
      ∀ t : ℝ, (matRotY t0).mulVec ⟨0, t, 0⟩ = ⟨0, t, 0⟩ := by
  refine ⟨radians (if st.rng.stream st.rng.k > 0.5 then -(5 : ℝ) else 5),
    ?_, ?_, ?_, ?_, ?_⟩
  · by_cases hb : st.rng.stream st.rng.k > 0.5
    · right
      rw [if_pos hb]
    · left
      rw [if_neg hb]
  · intro hb
    rw [if_pos hb]
  · intro hb
    rw [if_neg hb]
  · unfold Gen.hull_roll Gen.hull_roll_angle Gen.bmoRotate
    simp only [GenM.bind_def, GenM.pure_def]
    rw [GenM.bindG_ok (show GenM.bindG GenM.pyRandom
        (fun r => GenM.pureG (if r > 0.5 then -(5 : ℝ) else 5)) st =
      (Except.ok (if st.rng.stream st.rng.k > 0.5 then -(5 : ℝ) else 5),
        { st with rng := ⟨st.rng.stream, st.rng.k + 1⟩ }) from rfl)]
    rw [GenM.bindG_ok (GenM.getFace_ok
      (show ({ st with rng := ⟨st.rng.stream, st.rng.k + 1⟩ } :
        GState).mesh.faces.get? i = some f from hf))]
    rfl
  · intro t
    refine Vec3.ext_iff2 ?_ ?_ ?_ <;> simp [matRotY, Mat3.mulVec, Vec3.dot]

/-- C5 witness: the amended statement applied to the conrete face in the
plane z = 1 with the constant-zero stream. -/
theorem C5_roll_world_y_axis_witness :
    ∃ t0 : ℝ, (t0 = radians 5 ∨ t0 = radians (-5)) ∧
      (rollState.rng.stream rollState.rng.k > 0.5 → t0 = radians (-5)) ∧
      (¬rollState.rng.stream rollState.rng.k > 0.5 → t0 = radians 5) ∧
      Gen.hull_roll 0 rollState = (Except.ok (),
        { rollState with
          mesh := { rollState.mesh with verts :=
            (Gen.mapVertsAt
              (fun v => (matRotY t0).mulVec (v - ⟨0, 0, 0⟩) + ⟨0, 0, 0⟩)
              [0, 1, 2, 3] rollState.mesh.verts 0) },
          rng := ⟨rollState.rng.stream, rollState.rng.k + 1⟩,
          trace := rollState.trace ++ [GEvent.rotateVerts] }) ∧
      ∀ t : ℝ, (matRotY t0).mulVec ⟨0, t, 0⟩ = ⟨0, t, 0⟩ :=
  C5_roll_world_y_axis rollState 0
    ⟨[0, 1, 2, 3], ⟨0, 0, 1⟩, Material.hull, true⟩ rfl

/-- With an empty hull-segment range (min above max) the run raises
ValueError from the first `randint` call of the hull loop — after the base
cube has been created and scaled. Shared by the C3 theorem and its
counterexample. -/
theorem hull_range_error_after_mutation (g : RNG) (cfg : Config)
    (h : cfg.num_hull_segments_max < cfg.num_hull_segments_min) :
    (runGenerate g cfg).1 = Except.error PyErr.valueError ∧
    (runGenerate g cfg).2.trace = [GEvent.createCube, GEvent.scaleVerts] := by
  have hrange : List.range 8 = [0, 1, 2, 3, 4, 5, 6, 7] := rfl
  by_cases hs : cfg.random_seed = "" <;>
    refine ⟨?_, ?_⟩ <;>
      norm_num [runGenerate, Gen.generate_spaceship, GenM.bindG, GenM.pureG,
        GenM.throwG, GenM.setRng, GenM.modifyMesh, GenM.event, GenM.getState,
        GenM.draw, GenM.pyRandom, GenM.pyUniform, GenM.pyRandint, GenM.getFace,
        Gen.bmoCreateCube, Gen.bmoScale, Gen.mapVertsAt, Gen.aliveFaces,
        Gen.aliveIdxAux, Gen.allVertIdx, Gen.hullLoop, Gen.hullFace,
        emptyMesh, hrange, hs, h, abs_neg, abs_one, abs_zero]

/-- An invalid configuration: hull segment minimum above the maximum. -/
def badHullCfg : Config :=
  { random_seed := "", num_hull_segments_min := 5, num_hull_segments_max := 3 }

/-- C3 counterexample: with num_hull_segments_min = 5 > 3 =
num_hull_segments_max the run does raise ValueError, but only after the
base cube was created and scaled — two mesh mutations precede the
rejection, so the call does not fail fast before mesh mutation. -/
theorem C3_no_fail_fast_counterexample :
    (runGenerate zeroRNG badHullCfg).1 = Except.error PyErr.valueError ∧
    (runGenerate zeroRNG badHullCfg).2.trace =
      [GEvent.createCube, GEvent.scaleVerts] :=
  hull_range_error_after_mutation zeroRNG badHullCfg (by norm_num [badHullCfg])

/-- C3 amended: an invalid hull-segment configuration (min above max) is
rejected with ValueError raised by the first `randint` of the hull loop,
not by an upfront validation: by then the base cube has been created and
non-uniformly scaled (the trace of performed mesh mutations at the moment
of the rejection is exactly [createCube, scaleVerts]). -/
theorem C3_invalid_config_error_after_mutation (g : RNG) (cfg : Config)
    (h : cfg.num_hull_segments_max < cfg.num_hull_segments_min) :
    (runGenerate g cfg).1 = Except.error PyErr.valueError ∧
    (runGenerate g cfg).2.trace = [GEvent.createCube, GEvent.scaleVerts] :=
  hull_range_error_after_mutation g cfg h

/-- C3 witness: the amended statement at the concrete invalid config. -/
theorem C3_invalid_config_witness :
    (runGenerate halfRNG badHullCfg).1 = Except.error PyErr.valueError ∧
    (runGenerate halfRNG badHullCfg).2.trace =
      [GEvent.createCube, GEvent.scaleVerts] :=
  C3_invalid_config_error_after_mutation halfRNG badHullCfg (by norm_num [badHullCfg])

/-- When a nonempty seed string is supplied, `random.seed` installs a
stream that is a function of the string alone, and everything downstream
reads only that stream and the config — so the whole run result does not
depend on the ambient stream the process arrived with. -/
theorem seeded_runs_agree (g1 g2 : RNG) (cfg : Config)
    (h : cfg.random_seed ≠ "") : runGenerate g1 cfg = runGenerate g2 cfg := by
  unfold runGenerate Gen.generate_spaceship
  simp only [GenM.bind_def, GenM.pure_def]
  rw [if_pos h]
  rfl

/-- C1 theorem (amended to nonempty seed strings): two runs of
`generate_spaceship` with the same nonempty seed string and identical
config produce identical results — same Except outcome, and on success the
same face counts, material-tag assignment and vertex positions — whatever
ambient random state each run starts from. -/
theorem C1_seeded_determinism (g1 g2 : RNG) (cfg : Config)
    (h : cfg.random_seed ≠ "") :
    (runGenerate g1 cfg).1 = (runGenerate g2 cfg).1 ∧
    ∀ o1 o2, (runGenerate g1 cfg).1 = Except.ok o1 →
      (runGenerate g2 cfg).1 = Except.ok o2 →
      faceCount o1 = faceCount o2 ∧ materialTags o1 = materialTags o2 ∧
      vertexPositions o1 = vertexPositions o2 := by
  have heq := seeded_runs_agree g1 g2 cfg h
  constructor
  · rw [heq]
  · intro o1 o2 h1 h2
    rw [heq, h2] at h1
    injection h1 with h3
    subst h3
    exact ⟨rfl, rfl, rfl⟩

/-- A config with a nonempty seed string (all other parameters default). -/
def seedCfg : Config := { random_seed := "abc" }

/-- C1 witness: the determinism statement applied to the seed "abc" and two
different ambient streams. -/
theorem C1_seeded_determinism_witness :
    (runGenerate zeroRNG seedCfg).1 = (runGenerate halfRNG seedCfg).1 ∧
    ∀ o1 o2, (runGenerate zeroRNG seedCfg).1 = Except.ok o1 →
      (runGenerate halfRNG seedCfg).1 = Except.ok o2 →
      faceCount o1 = faceCount o2 ∧ materialTags o1 = materialTags o2 ∧
      vertexPositions o1 = vertexPositions o2 :=
  C1_seeded_determinism zeroRNG halfRNG seedCfg (by decide)

/-- A config with the EMPTY seed string (Python `if random_seed:` then
skips the seeding), zero hull segments and the asymmetry and detail passes
off, so the committed mesh is exactly the scaled base cube. -/
def cfgNoSeed : Config :=
  { random_seed := "", num_hull_segments_min := 0, num_hull_segments_max := 0,
    create_asymmetry_segments := false, create_face_detail := false }

/-- C1 counterexample: with the empty seed string the seeding is skipped,
so two independent runs (different ambient stream states) scale the base
cube by different uniform draws and produce different vertex positions —
the determinism claim fails for the empty seed string. -/
theorem C1_empty_seed_counterexample :
    Except.map vertexPositions (runGenerate zeroRNG cfgNoSeed).1 ≠
    Except.map vertexPositions (runGenerate halfRNG cfgNoSeed).1 := by
  intro hEq
  have hproj := congrArg
    (fun e => Option.map (fun vs => (List.getD vs 0 0).x) e.toOption) hEq
  have hrange : List.range 8 = [0, 1, 2, 3, 4, 5, 6, 7] := rfl
  norm_num [runGenerate, Gen.generate_spaceship, GenM.bindG, GenM.pureG,
    GenM.throwG, GenM.setRng, GenM.modifyMesh, GenM.event, GenM.getState,
    GenM.draw, GenM.pyRandom, GenM.pyUniform, GenM.pyRandint, GenM.getFace,
    Gen.bmoCreateCube, Gen.bmoScale, Gen.mapVertsAt, Gen.aliveFaces,
    Gen.aliveIdxAux, Gen.allVertIdx, Gen.hullLoop, Gen.hullFace,
    Gen.hullSegmentLoop, Gen.ribbed_extrude_face, emptyMesh, hrange,
    cfgNoSeed, zeroRNG, halfRNG, vertexPositions, Except.map, Except.toOption,
    Int.floor_zero, abs_neg, abs_one, abs_zero] at hproj

/-- The unit square quad in the plane z = 0. -/
def sqQuad : FG.Quad := ⟨⟨0, 0, 0⟩, ⟨1, 0, 0⟩, ⟨1, 1, 0⟩, ⟨0, 1, 0⟩⟩

/-- C4: for every nondegenerate quad face, every positive total distance,
every rib count at least one and every nonzero rib scale,
`ribbed_extrude_face` advances the face's origin vertex by exactly the
requested total distance along the face normal (the per-rib quarter, half
and quarter sub-extrusions sum to totalDistance/numRibs per rib, and the
contract/expand scalings never move the face out of its plane), so the
forward distance travelled equals the requested total, regardless of the
rib scale. -/
theorem C4_ribbed_extrude_total_advance (q : FG.Quad) (D : ℝ) (n : Nat)
    (s : ℝ) (hn : 1 ≤ n) (hD : 0 < D) (he : FG.edgeCross q ≠ 0)
    (hd : FG.diagCross q ≠ 0) (hs : s ≠ 0) :
    (FG.ribbed_extrude_face q D n s).v0 - q.v0 = D • FG.quadNormal q ∧
    Vec3.dot (FG.quadNormal q) ((FG.ribbed_extrude_face q D n s).v0 - q.v0)
      = D := by
  have hInv0 : FG.RibInv q q 0 := ⟨rfl, he, hd, by rw [zero_smul, add_zero]⟩
  have hloop := FG.ribInv_ribLoop hs (D / (n : ℝ)) n q 0 hInv0
  obtain ⟨-, -, -, hv⟩ := hloop
  have hnr : (n : ℝ) ≠ 0 := Nat.cast_ne_zero.mpr (by omega)
  have harith : 0 + (n : ℝ) * (D / (n : ℝ)) = D := by field_simp
  have hmain : (FG.ribbed_extrude_face q D n s).v0 - q.v0
      = D • FG.quadNormal q := by
    show (FG.ribLoop (D / (n : ℝ)) s n q).v0 - q.v0 = D • FG.quadNormal q
    rw [hv, harith]
    exact add_sub_cancel_left q.v0 _
  refine ⟨hmain, ?_⟩
  rw [hmain, Vec3.dot_smul_right]
  have hunit : Vec3.dot (FG.quadNormal q) (FG.quadNormal q) = 1 :=
    Vec3.dot_self_normalized hd
  rw [hunit]
  ring

/-- C4 witness: three ribs of total distance 2 at rib scale one half on the
unit square advance its origin vertex by exactly 2 along the normal. -/
theorem C4_ribbed_extrude_witness :
    (FG.ribbed_extrude_face sqQuad 2 3 (1 / 2)).v0 - sqQuad.v0 =
      (2 : ℝ) • FG.quadNormal sqQuad ∧
    Vec3.dot (FG.quadNormal sqQuad)
      ((FG.ribbed_extrude_face sqQuad 2 3 (1 / 2)).v0 - sqQuad.v0) = 2 := by
  have he : FG.edgeCross sqQuad ≠ 0 := by
    have hc : FG.edgeCross sqQuad = ⟨0, 0, 1⟩ := by
      refine Vec3.ext_iff2 ?_ ?_ ?_ <;>
        norm_num [FG.edgeCross, sqQuad, Vec3.cross]
    rw [hc]
    intro h
    have := congrArg Vec3.z h
    norm_num at this
  have hd : FG.diagCross sqQuad ≠ 0 := by
    have hc : FG.diagCross sqQuad = ⟨0, 0, 2⟩ := by
      refine Vec3.ext_iff2 ?_ ?_ ?_ <;>
        norm_num [FG.diagCross, sqQuad, Vec3.cross]
    rw [hc]
    intro h
    have := congrArg Vec3.z h
    norm_num at this
  exact C4_ribbed_extrude_total_advance sqQuad 2 3 (1 / 2) (by norm_num)
    (by norm_num) he hd (by norm_num)

/-- C8 amended: the three rows of the frame built by `get_face_matrix` are
mutually orthogonal unit vectors for every quad whose two frame edges
(v1 − v0 and v3 − v0) are nonzero and PERPENDICULAR — a rectangle corner at
v0. (For a general well-formed planar quad this fails: the x and y axes are
the normalized edges themselves and inherit the corner angle; see the
counterexample.) -/
theorem C8_frame_orthonormal_perp_edges (q : FG.Quad)
    (h1 : q.v1 - q.v0 ≠ 0) (h3 : q.v3 - q.v0 ≠ 0)
    (hperp : Vec3.dot (q.v1 - q.v0) (q.v3 - q.v0) = 0) :
    Vec3.dot (FG.get_face_matrix q none).L.r0 (FG.get_face_matrix q none).L.r1
      = 0 ∧
    Vec3.dot (FG.get_face_matrix q none).L.r0 (FG.get_face_matrix q none).L.r2
      = 0 ∧
    Vec3.dot (FG.get_face_matrix q none).L.r1 (FG.get_face_matrix q none).L.r2
      = 0 ∧
    Vec3.vnorm (FG.get_face_matrix q none).L.r0 = 1 ∧
    Vec3.vnorm (FG.get_face_matrix q none).L.r1 = 1 ∧
    Vec3.vnorm (FG.get_face_matrix q none).L.r2 = 1 := by
  have hr0 : (FG.get_face_matrix q none).L.r0 = Vec3.normalized (q.v1 - q.v0) := rfl
  have hr1 : (FG.get_face_matrix q none).L.r1 = Vec3.normalized (q.v3 - q.v0) := rfl
  have hr2 : (FG.get_face_matrix q none).L.r2 =
    Vec3.cross (Vec3.normalized (q.v1 - q.v0)) (Vec3.normalized (q.v3 - q.v0)) := rfl
  have hdot01 : Vec3.dot (Vec3.normalized (q.v1 - q.v0))
      (Vec3.normalized (q.v3 - q.v0)) = 0 := by
    unfold Vec3.normalized
    rw [Vec3.dot_smul_left, Vec3.dot_smul_right, hperp]
    ring
  refine ⟨?_, ?_, ?_, ?_, ?_, ?_⟩
  · rw [hr0, hr1]
    exact hdot01
  · rw [hr0, hr2]
    exact Vec3.dot_cross_left _ _
  · rw [hr1, hr2]
    exact Vec3.dot_cross_right _ _
  · rw [hr0]
    exact Vec3.vnorm_normalized h1
  · rw [hr1]
    exact Vec3.vnorm_normalized h3
  · rw [hr2]
    have hdd : Vec3.dot
        (Vec3.cross (Vec3.normalized (q.v1 - q.v0)) (Vec3.normalized (q.v3 - q.v0)))
        (Vec3.cross (Vec3.normalized (q.v1 - q.v0)) (Vec3.normalized (q.v3 - q.v0)))
        = 1 := by
      rw [Vec3.dot_cross_self, Vec3.dot_self_normalized h1,
        Vec3.dot_self_normalized h3, hdot01]
      ring
    unfold Vec3.vnorm
    rw [hdd, Real.sqrt_one]

/-- C8 witness: the amended statement holds on the unit square (its frame
edges at v0 are nonzero and perpendicular). -/
theorem C8_frame_orthonormal_witness :
    Vec3.dot (FG.get_face_matrix sqQuad none).L.r0
      (FG.get_face_matrix sqQuad none).L.r1 = 0 ∧
    Vec3.dot (FG.get_face_matrix sqQuad none).L.r0
      (FG.get_face_matrix sqQuad none).L.r2 = 0 ∧
    Vec3.dot (FG.get_face_matrix sqQuad none).L.r1
      (FG.get_face_matrix sqQuad none).L.r2 = 0 ∧
    Vec3.vnorm (FG.get_face_matrix sqQuad none).L.r0 = 1 ∧
    Vec3.vnorm (FG.get_face_matrix sqQuad none).L.r1 = 1 ∧
    Vec3.vnorm (FG.get_face_matrix sqQuad none).L.r2 = 1 := by
  refine C8_frame_orthonormal_perp_edges sqQuad ?_ ?_ ?_
  · intro h
    have := congrArg Vec3.x h
    norm_num [sqQuad] at this
  · intro h
    have := congrArg Vec3.y h
    norm_num [sqQuad] at this
  · norm_num [sqQuad, Vec3.dot]

/-- A well-formed planar quad that is a parallelogram but not a rectangle:
vertices (0,0,0), (1,0,0), (2,1,0), (1,1,0), all in the plane z = 0,
convex, with nonzero nonparallel edges. -/
def parQuad : FG.Quad := ⟨⟨0, 0, 0⟩, ⟨1, 0, 0⟩, ⟨2, 1, 0⟩, ⟨1, 1, 0⟩⟩

/-- C8 counterexample: on a planar nondegenerate parallelogram the x and y
axes computed by `get_face_matrix` are NOT orthogonal — their dot product
is 1/sqrt 2 — so the claim fails for general well-formed planar quads. -/
theorem C8_frame_counterexample :
    FG.edgeCross parQuad ≠ 0 ∧
    parQuad.v0.z = 0 ∧ parQuad.v1.z = 0 ∧ parQuad.v2.z = 0 ∧ parQuad.v3.z = 0 ∧
    Vec3.dot (FG.get_face_matrix parQuad none).L.r0
      (FG.get_face_matrix parQuad none).L.r1 ≠ 0 := by
  have hec : FG.edgeCross parQuad = ⟨0, 0, 1⟩ := by
    refine Vec3.ext_iff2 ?_ ?_ ?_ <;>
      norm_num [FG.edgeCross, parQuad, Vec3.cross]
  refine ⟨?_, rfl, rfl, rfl, rfl, ?_⟩
  · rw [hec]
    intro h
    have := congrArg Vec3.z h
    norm_num at this
  · have h2 : (0 : ℝ) < Real.sqrt 2 := Real.sqrt_pos.mpr (by norm_num)
    have hdot : Vec3.dot (FG.get_face_matrix parQuad none).L.r0
        (FG.get_face_matrix parQuad none).L.r1 = (Real.sqrt 2)⁻¹ := by
      show Vec3.dot (Vec3.normalized (parQuad.v1 - parQuad.v0))
        (Vec3.normalized (parQuad.v3 - parQuad.v0)) = (Real.sqrt 2)⁻¹
      have he1 : parQuad.v1 - parQuad.v0 = ⟨1, 0, 0⟩ := by
        refine Vec3.ext_iff2 ?_ ?_ ?_ <;> norm_num [parQuad]
      have he3 : parQuad.v3 - parQuad.v0 = ⟨1, 1, 0⟩ := by
        refine Vec3.ext_iff2 ?_ ?_ ?_ <;> norm_num [parQuad]
      rw [he1, he3]
      unfold Vec3.normalized Vec3.vnorm
      norm_num [Vec3.dot]
    rw [hdot]
    exact inv_ne_zero (ne_of_gt h2)

/-- C2 amended: every one of the seven Detail Generators is a perfect
no-op (no geometry, no material change, no error, no randomness consumed)
on an invalid face; the five generators that need four vertices
(cylinders, weapons, sphere, antenna, disc) are additionally no-ops on any
face with fewer than four vertices. `add_exhaust_to_face` and
`add_grid_to_face` check only validity — see the counterexample for a
valid triangle where exhaust creates geometry. -/
theorem C2_detailer_guards (st : GState) (i : Nat) (f : MFace)
    (hf : st.mesh.faces.get? i = some f) :
    (f.isValid = false →
      Gen.add_exhaust_to_face i st = (Except.ok (), st) ∧
      Gen.add_grid_to_face i st = (Except.ok (), st) ∧
      Gen.add_cylinders_to_face i st = (Except.ok (), st) ∧
      Gen.add_weapons_to_face i st = (Except.ok (), st) ∧
      Gen.add_sphere_to_face i st = (Except.ok (), st) ∧
      Gen.add_surface_antenna_to_face i st = (Except.ok (), st) ∧
      Gen.add_disc_to_face i st = (Except.ok (), st)) ∧
    (f.verts.length < 4 →
      Gen.add_cylinders_to_face i st = (Except.ok (), st) ∧
      Gen.add_weapons_to_face i st = (Except.ok (), st) ∧
      Gen.add_sphere_to_face i st = (Except.ok (), st) ∧
      Gen.add_surface_antenna_to_face i st = (Except.ok (), st) ∧
      Gen.add_disc_to_face i st = (Except.ok (), st)) := by
  constructor
  · intro hv
    refine ⟨?_, ?_, ?_, ?_, ?_, ?_, ?_⟩
    · unfold Gen.add_exhaust_to_face
      simp only [GenM.bind_def, GenM.pure_def]
      rw [GenM.bindG_ok (GenM.getFace_ok hf), if_pos hv]
      rfl
    · unfold Gen.add_grid_to_face
      simp only [GenM.bind_def, GenM.pure_def]
      rw [GenM.bindG_ok (GenM.getFace_ok hf), if_pos hv]
      rfl
    · unfold Gen.add_cylinders_to_face
      simp only [GenM.bind_def, GenM.pure_def]
      rw [GenM.bindG_ok (GenM.getFace_ok hf), if_pos (Or.inl hv)]
      rfl
    · unfold Gen.add_weapons_to_face
      simp only [GenM.bind_def, GenM.pure_def]
      rw [GenM.bindG_ok (GenM.getFace_ok hf), if_pos (Or.inl hv)]
      rfl
    · unfold Gen.add_sphere_to_face
      simp only [GenM.bind_def, GenM.pure_def]
      rw [GenM.bindG_ok (GenM.getFace_ok hf), if_pos (Or.inl hv)]
      rfl
    · unfold Gen.add_surface_antenna_to_face
      simp only [GenM.bind_def, GenM.pure_def]
      rw [GenM.bindG_ok (GenM.getFace_ok hf), if_pos (Or.inl hv)]
      rfl
    · unfold Gen.add_disc_to_face
      simp only [GenM.bind_def, GenM.pure_def]
      rw [GenM.bindG_ok (GenM.getFace_ok hf), if_pos (Or.inl hv)]
      rfl
  · intro hn
    refine ⟨?_, ?_, ?_, ?_, ?_⟩
    · unfold Gen.add_cylinders_to_face
      simp only [GenM.bind_def, GenM.pure_def]
      rw [GenM.bindG_ok (GenM.getFace_ok hf), if_pos (Or.inr hn)]
      rfl
    · unfold Gen.add_weapons_to_face
      simp only [GenM.bind_def, GenM.pure_def]
      rw [GenM.bindG_ok (GenM.getFace_ok hf), if_pos (Or.inr hn)]
      rfl
    · unfold Gen.add_sphere_to_face
      simp only [GenM.bind_def, GenM.pure_def]
      rw [GenM.bindG_ok (GenM.getFace_ok hf), if_pos (Or.inr hn)]
      rfl
    · unfold Gen.add_surface_antenna_to_face
      simp only [GenM.bind_def, GenM.pure_def]
      rw [GenM.bindG_ok (GenM.getFace_ok hf), if_pos (Or.inr hn)]
      rfl
    · unfold Gen.add_disc_to_face
      simp only [GenM.bind_def, GenM.pure_def]
      rw [GenM.bindG_ok (GenM.getFace_ok hf), if_pos (Or.inr hn)]
      rfl

/-- An invalid (already consumed) triangle face. -/
def invalidMesh : Mesh :=
  ⟨[⟨0, 0, 0⟩, ⟨1, 0, 0⟩, ⟨1, 1, 0⟩],
   [⟨[0, 1, 2], ⟨0, 0, 1⟩, Material.hull, false⟩], []⟩

def invalidState : GState := ⟨invalidMesh, zeroRNG, []⟩

/-- C2 witness: all seven generators are no-ops on a concrete invalid
triangle face (and the five vertex-guarded ones also on that vertex
count). -/
theorem C2_detailer_guards_witness :
    ((false : Bool) = false →
      Gen.add_exhaust_to_face 0 invalidState = (Except.ok (), invalidState) ∧
      Gen.add_grid_to_face 0 invalidState = (Except.ok (), invalidState) ∧
      Gen.add_cylinders_to_face 0 invalidState = (Except.ok (), invalidState) ∧
      Gen.add_weapons_to_face 0 invalidState = (Except.ok (), invalidState) ∧
      Gen.add_sphere_to_face 0 invalidState = (Except.ok (), invalidState) ∧
      Gen.add_surface_antenna_to_face 0 invalidState = (Except.ok (), invalidState) ∧
      Gen.add_disc_to_face 0 invalidState = (Except.ok (), invalidState)) ∧
    (([0, 1, 2] : List Nat).length < 4 →
      Gen.add_cylinders_to_face 0 invalidState = (Except.ok (), invalidState) ∧
      Gen.add_weapons_to_face 0 invalidState = (Except.ok (), invalidState) ∧
      Gen.add_sphere_to_face 0 invalidState = (Except.ok (), invalidState) ∧
      Gen.add_surface_antenna_to_face 0 invalidState = (Except.ok (), invalidState) ∧
      Gen.add_disc_to_face 0 invalidState = (Except.ok (), invalidState)) :=
  C2_detailer_guards invalidState 0
    ⟨[0, 1, 2], ⟨0, 0, 1⟩, Material.hull, false⟩ rfl

/-- A VALID triangle face (three vertices) on which the vertex-count part
of the claim can be probed. -/
def triMesh : Mesh :=
  ⟨[⟨0, 0, 0⟩, ⟨1, 0, 0⟩, ⟨1, 1, 0⟩],
   [⟨[0, 1, 2], ⟨0, 0, 1⟩, Material.hull, true⟩], []⟩

def triState : GState := ⟨triMesh, zeroRNG, []⟩

set_option maxHeartbeats 1600000 in
/-- C2 counterexample: `add_exhaust_to_face` checks only validity, not the
vertex count; on a concrete VALID face with three vertices it runs its
subdivision and creates new geometry (the face count grows), so it is not
a no-op there. -/
theorem C2_exhaust_triangle_counterexample :
    (∃ f, triState.mesh.faces.get? 0 = some f ∧ f.isValid = true ∧
      f.verts.length < 4) ∧
    (Gen.add_exhaust_to_face 0 triState).1 = Except.ok () ∧
    (Gen.add_exhaust_to_face 0 triState).2.mesh.faces.length >
      triState.mesh.faces.length := by
  refine ⟨⟨⟨[0, 1, 2], ⟨0, 0, 1⟩, Material.hull, true⟩, rfl, rfl, by norm_num⟩,
    ?_, ?_⟩ <;>
    norm_num [Gen.add_exhaust_to_face, Gen.get_aspect_ratio, Gen.edgeLength,
      Gen.exhaustDetailLoop, Gen.is_rear_face, pyInt, Gen.bmoSubdivideFace,
      Gen.subdivRing, Gen.centroidOf, Gen.polyNormal, GenM.bindG, GenM.pureG,
      GenM.throwG, GenM.getFace, GenM.getVert, GenM.faceVert,
      GenM.faceVertPositions, GenM.faceVertPositions.collect, GenM.event,
      GenM.modifyMesh, GenM.getState, GenM.invalidateFace, GenM.updFace,
      GenM.setFaceMaterial, GenM.draw, GenM.pyRandom, GenM.pyUniform,
      GenM.pyRandint, triState, triMesh, zeroRNG, Vec3.vnorm, Vec3.dot,
      Vec3.lerp, Vec3.normalized, Vec3.cross, List.range_succ, Int.floor_zero]

/-! ### C9 infrastructure: the classification pass touches only material
tags and the random stream, so a face's rear-eligibility is stable across
the pass. -/

/-- The geometric content of a face record: everything except its material
tag. -/
def faceGeom (f : MFace) : List Nat × Vec3 × Bool := (f.verts, f.normal, f.isValid)

/-- Two states that agree on all vertex positions and on the geometric
content of every face slot (materials and the random stream may differ). -/
def MatOnly (s1 s2 : GState) : Prop :=
  s1.mesh.verts = s2.mesh.verts ∧
  ∀ j, Option.map faceGeom (s1.mesh.faces.get? j) =
    Option.map faceGeom (s2.mesh.faces.get? j)

theorem matOnly_refl (s : GState) : MatOnly s s := ⟨rfl, fun _ => rfl⟩

theorem matOnly_trans {s1 s2 s3 : GState} (h1 : MatOnly s1 s2)
    (h2 : MatOnly s2 s3) : MatOnly s1 s3 :=
  ⟨h1.1.trans h2.1, fun j => (h1.2 j).trans (h2.2 j)⟩

/-- A computation that never modifies the state. -/
def ReadOnly {α : Type} (m : GenM α) : Prop := ∀ s, (m s).2 = s

theorem readOnly_pureG {α : Type} (a : α) : ReadOnly (GenM.pureG a) := fun _ => rfl

theorem readOnly_throwG {α : Type} (e : PyErr) : ReadOnly (GenM.throwG e : GenM α) :=
  fun _ => rfl

theorem readOnly_bindG {α β : Type} {m : GenM α} {g : α → GenM β}
    (hm : ReadOnly m) (hg : ∀ a, ReadOnly (g a)) : ReadOnly (GenM.bindG m g) := by
  intro s
  unfold GenM.bindG
  rcases h : m s with ⟨r, t⟩
  have ht : t = s := by
    have h2 := hm s
    rw [h] at h2
    exact h2
  subst ht
  cases r with
  | ok a => exact hg a t
  | error e => rfl

theorem readOnly_ite {α : Type} (c : Prop) [Decidable c] {m1 m2 : GenM α}
    (h1 : ReadOnly m1) (h2 : ReadOnly m2) : ReadOnly (if c then m1 else m2) := by
  by_cases hc : c
  · rw [if_pos hc]; exact h1
  · rw [if_neg hc]; exact h2

theorem readOnly_getFace (i : Nat) : ReadOnly (GenM.getFace i) := by
  intro s
  unfold GenM.getFace
  rcases s.mesh.faces.get? i with _ | f <;> rfl

theorem readOnly_getVert (j : Nat) : ReadOnly (GenM.getVert j) := by
  intro s
  unfold GenM.getVert
  rcases s.mesh.verts.get? j with _ | p <;> rfl

theorem readOnly_faceVert (f : MFace) (k : Nat) : ReadOnly (GenM.faceVert f k) := by
  unfold GenM.faceVert
  rcases f.verts.get? k with _ | j
  · exact readOnly_throwG _
  · exact readOnly_getVert _

theorem readOnly_faceVertPositions (f : MFace) :
    ReadOnly (GenM.faceVertPositions f) := by
  intro s
  unfold GenM.faceVertPositions
  rcases GenM.faceVertPositions.collect s f.verts with _ | ps <;> rfl

theorem readOnly_edgeLength (f : MFace) (k : Nat) :
    ReadOnly (Gen.edgeLength f k) := by
  unfold Gen.edgeLength
  simp only [GenM.bind_def, GenM.pure_def]
  exact readOnly_bindG (readOnly_faceVert f k)
    (fun p => readOnly_bindG (readOnly_faceVert f _)
      (fun q => readOnly_pureG _))

theorem readOnly_get_aspect_ratio (i : Nat) :
    ReadOnly (Gen.get_aspect_ratio i) := by
  unfold Gen.get_aspect_ratio
  simp only [GenM.bind_def, GenM.pure_def]
  refine readOnly_bindG (readOnly_getFace i) (fun f => ?_)
  refine readOnly_ite _ (readOnly_pureG _) ?_
  refine readOnly_bindG (readOnly_edgeLength f 0) (fun e0 => ?_)
  refine readOnly_bindG (readOnly_edgeLength f 1) (fun e1 => ?_)
  exact readOnly_ite _ (readOnly_throwG _) (readOnly_pureG _)

theorem readOnly_calc_center_bounds (f : MFace) :
    ReadOnly (Gen.calc_center_bounds f) := by
  unfold Gen.calc_center_bounds
  simp only [GenM.bind_def, GenM.pure_def]
  exact readOnly_bindG (readOnly_faceVertPositions f) (fun ps => readOnly_pureG _)

/-- A computation whose only state effects are material tags and the random
stream. -/
def MatOnlyM {α : Type} (m : GenM α) : Prop :=
  ∀ s r t, m s = (r, t) → MatOnly s t

theorem snd_of_run {α : Type} {m : GenM α} {s : GState} {r : Except PyErr α}
    {t : GState} (h : m s = (r, t)) : t = (m s).2 := by rw [h]

theorem matOnlyM_of_readOnly {α : Type} {m : GenM α} (hm : ReadOnly m) :
    MatOnlyM m := by
  intro s r t h
  rw [snd_of_run h, hm s]
  exact matOnly_refl s

theorem matOnlyM_bindG {α β : Type} {m : GenM α} {g : α → GenM β}
    (hm : MatOnlyM m) (hg : ∀ a, MatOnlyM (g a)) : MatOnlyM (GenM.bindG m g) := by
  intro s r t h
  unfold GenM.bindG at h
  rcases h1 : m s with ⟨r1, t1⟩
  rw [h1] at h
  cases r1 with
  | ok a =>
      exact matOnly_trans (hm s _ _ h1) (hg a t1 r t h)
  | error e =>
      have : t = t1 := by
        have := congrArg Prod.snd h
        simpa using this.symm
      rw [this]
      exact hm s _ _ h1

theorem matOnlyM_ite {α : Type} (c : Prop) [Decidable c] {m1 m2 : GenM α}
    (h1 : MatOnlyM m1) (h2 : MatOnlyM m2) : MatOnlyM (if c then m1 else m2) := by
  by_cases hc : c
  · rw [if_pos hc]; exact h1
  · rw [if_neg hc]; exact h2

theorem matOnlyM_pyRandom : MatOnlyM GenM.pyRandom := by
  intro s r t h
  rw [snd_of_run h]
  exact ⟨rfl, fun _ => rfl⟩

theorem updFace_get? (g : MFace → MFace) :
    ∀ (fs : List MFace) (i j : Nat),
      (GenM.updFace fs i g).get? j =
        if j = i then (fs.get? j).map g else fs.get? j := by
  intro fs
  induction fs with
  | nil =>
      intro i j
      simp [GenM.updFace]
  | cons f rest ih =>
      intro i j
      cases i with
      | zero =>
          cases j with
          | zero => simp [GenM.updFace]
          | succ j2 => simp [GenM.updFace]
      | succ i2 =>
          cases j with
          | zero => simp [GenM.updFace]
          | succ j2 =>
              simp only [GenM.updFace, List.get?_cons_succ, ih i2 j2,
                Nat.add_right_cancel_iff]

theorem matOnlyM_setFaceMaterial (i : Nat) (m : Material) :
    MatOnlyM (GenM.setFaceMaterial i m) := by
  intro s r t h
  rw [snd_of_run h]
  refine ⟨rfl, fun j => ?_⟩
  show Option.map faceGeom (s.mesh.faces.get? j) = Option.map faceGeom
    ((GenM.updFace s.mesh.faces i fun f => { f with material_index := m }).get? j)
  rw [updFace_get?]
  by_cases hj : j = i
  · rw [if_pos hj]
    rcases s.mesh.faces.get? j with _ | f <;> rfl
  · rw [if_neg hj]

/-- A run of a read-only computation is determined by its first component. -/
theorem readOnly_run {α : Type} {m : GenM α} (hm : ReadOnly m) {s : GState}
    {r : Except PyErr α} (h : (m s).1 = r) : m s = (r, s) := by
  rcases hh : m s with ⟨r1, t1⟩
  rw [hh] at h
  have ht : t1 = s := by
    have h2 := hm s
    rw [hh] at h2
    exact h2
  have hr : r1 = r := h
  rw [ht, hr]

/-- The first component of `faceVert` agrees across states with the same
vertex arena and faces with the same vertex-index list. -/
theorem faceVert_fst_congr {s t : GState} (hv : s.mesh.verts = t.mesh.verts)
    {f g : MFace} (hfv : f.verts = g.verts) (k : Nat) :
    (GenM.faceVert f k s).1 = (GenM.faceVert g k t).1 := by
  unfold GenM.faceVert
  rw [hfv]
  rcases g.verts.get? k with _ | j
  · rfl
  · show (GenM.getVert j s).1 = (GenM.getVert j t).1
    unfold GenM.getVert
    rw [hv]
    rcases t.mesh.verts.get? j with _ | p <;> rfl

/-- The first component of `edgeLength` agrees across states with the same
vertex arena and faces with the same vertex-index list. -/
theorem edgeLength_fst_congr {s t : GState} (hv : s.mesh.verts = t.mesh.verts)
    {f g : MFace} (hfv : f.verts = g.verts) (k : Nat) :
    (Gen.edgeLength f k s).1 = (Gen.edgeLength g k t).1 := by
  unfold Gen.edgeLength
  simp only [GenM.bind_def, GenM.pure_def]
  have hc0 := faceVert_fst_congr hv hfv k
  rcases h1 : GenM.faceVert f k s with ⟨r1, s1⟩
  rcases h2 : GenM.faceVert g k t with ⟨r2, t1⟩
  rw [h1, h2] at hc0
  have hr : r1 = r2 := hc0
  rw [hr] at h1
  have hs1 : s1 = s := by
    have hh := readOnly_faceVert f k s
    rw [h1] at hh
    exact hh
  have ht1 : t1 = t := by
    have hh := readOnly_faceVert g k t
    rw [h2] at hh
    exact hh
  rw [hs1] at h1
  rw [ht1] at h2
  cases r2 with
  | error e =>
      rw [GenM.bindG_err h1, GenM.bindG_err h2]
  | ok p =>
      rw [GenM.bindG_ok h1, GenM.bindG_ok h2]
      rw [hfv]
      have hc1 := faceVert_fst_congr hv hfv ((k + 1) % g.verts.length)
      rcases h3 : GenM.faceVert f ((k + 1) % g.verts.length) s with ⟨r3, s3⟩
      rcases h4 : GenM.faceVert g ((k + 1) % g.verts.length) t with ⟨r4, t3⟩
      rw [h3, h4] at hc1
      have hr3 : r3 = r4 := hc1
      rw [hr3] at h3
      have hs3 : s3 = s := by
        have hh := readOnly_faceVert f ((k + 1) % g.verts.length) s
        rw [h3] at hh
        exact hh
      have ht3 : t3 = t := by
        have hh := readOnly_faceVert g ((k + 1) % g.verts.length) t
        rw [h4] at hh
        exact hh
      rw [hs3] at h3
      rw [ht3] at h4
      cases r4 with
      | error e =>
          rw [GenM.bindG_err h3, GenM.bindG_err h4]
      | ok q =>
          rw [GenM.bindG_ok h3, GenM.bindG_ok h4]
          rfl

/-- The value (first component) of `get_aspect_ratio` is invariant under
state changes that only touch material tags or the random stream. -/
theorem aspect_fst_congr {s t : GState} (h : MatOnly s t) (i : Nat) :
    (Gen.get_aspect_ratio i s).1 = (Gen.get_aspect_ratio i t).1 := by
  obtain ⟨hv, hfg⟩ := h
  have hfi := hfg i
  unfold Gen.get_aspect_ratio
  simp only [GenM.bind_def, GenM.pure_def]
  rcases hfs : s.mesh.faces.get? i with _ | f
  · rcases hft : t.mesh.faces.get? i with _ | g
    · rw [GenM.bindG_err (show GenM.getFace i s =
          (Except.error PyErr.indexError, s) from by unfold GenM.getFace; rw [hfs]),
        GenM.bindG_err (show GenM.getFace i t =
          (Except.error PyErr.indexError, t) from by unfold GenM.getFace; rw [hft])]
    · rw [hfs, hft] at hfi
      simp [faceGeom] at hfi
  · rcases hft : t.mesh.faces.get? i with _ | g
    · rw [hfs, hft] at hfi
      simp [faceGeom] at hfi
    · rw [hfs, hft] at hfi
      obtain ⟨hfv, hn, hval⟩ : f.verts = g.verts ∧ f.normal = g.normal ∧
          f.isValid = g.isValid := by
        simpa [faceGeom] using hfi
      rw [GenM.bindG_ok (GenM.getFace_ok hfs), GenM.bindG_ok (GenM.getFace_ok hft)]
      rw [hval]
      by_cases hb : g.isValid = false
      · rw [if_pos hb, if_pos hb]
        rfl
      · rw [if_neg hb, if_neg hb]
        have hc0 := edgeLength_fst_congr hv hfv 0
        rcases h1 : Gen.edgeLength f 0 s with ⟨r1, s1⟩
        rcases h2 : Gen.edgeLength g 0 t with ⟨r2, t1⟩
        rw [h1, h2] at hc0
        have hr : r1 = r2 := hc0
        rw [hr] at h1
        have hs1 : s1 = s := by
          have hh := readOnly_edgeLength f 0 s
          rw [h1] at hh
          exact hh
        have ht1 : t1 = t := by
          have hh := readOnly_edgeLength g 0 t
          rw [h2] at hh
          exact hh
        rw [hs1] at h1
        rw [ht1] at h2
        cases r2 with
        | error e =>
            rw [GenM.bindG_err h1, GenM.bindG_err h2]
        | ok e0 =>
            rw [GenM.bindG_ok h1, GenM.bindG_ok h2]
            have hc1 := edgeLength_fst_congr hv hfv 1
            rcases h3 : Gen.edgeLength f 1 s with ⟨r3, s3⟩
            rcases h4 : Gen.edgeLength g 1 t with ⟨r4, t3⟩
            rw [h3, h4] at hc1
            have hr3 : r3 = r4 := hc1
            rw [hr3] at h3
            have hs3 : s3 = s := by
              have hh := readOnly_edgeLength f 1 s
              rw [h3] at hh
              exact hh
            have ht3 : t3 = t := by
              have hh := readOnly_edgeLength g 1 t
              rw [h4] at hh
              exact hh
            rw [hs3] at h3
            rw [ht3] at h4
            cases r4 with
            | error e =>
                rw [GenM.bindG_err h3, GenM.bindG_err h4]
            | ok e1 =>
                rw [GenM.bindG_ok h3, GenM.bindG_ok h4]
                by_cases hz : e1 = 0
                · rw [if_pos hz]
                  rfl
                · rw [if_neg hz]
                  rfl

/-- A face index the classification pass routes through the rear branch:
present in the arena with a rear cached normal, and an aspect ratio that
computes successfully to at most 3 (so line 125 does not skip it). -/
def RearEligible (s : GState) (i : Nat) : Prop :=
  (∃ f, s.mesh.faces.get? i = some f ∧ Gen.is_rear_face f) ∧
  ∃ ar : ℝ, (Gen.get_aspect_ratio i s).1 = Except.ok ar ∧ ¬ ar > 3

/-- Rear eligibility is preserved by steps that only touch material tags
and the random stream. -/
theorem rearEligible_transfer {s t : GState} (h : MatOnly s t) {i : Nat}
    (he : RearEligible s i) : RearEligible t i := by
  obtain ⟨⟨f, hf, hrear⟩, ar, har, har3⟩ := he
  obtain ⟨hv, hfg⟩ := h
  have hfi := hfg i
  rw [hf] at hfi
  rcases hft : t.mesh.faces.get? i with _ | g
  · rw [hft] at hfi
    simp [faceGeom] at hfi
  · rw [hft] at hfi
    obtain ⟨hfv, hn, hval⟩ : f.verts = g.verts ∧ f.normal = g.normal ∧
        f.isValid = g.isValid := by
      simpa [faceGeom] using hfi
    refine ⟨⟨g, hft, ?_⟩, ar, ?_, har3⟩
    · unfold Gen.is_rear_face at hrear ⊢
      rw [← hn]
      exact hrear
    · rw [← aspect_fst_congr ⟨hv, hfg⟩ i]
      exact har

/-- A postcondition on the bucket value a classification step returns. -/
def BucketPost (P : Gen.Buckets → Prop) (m : GenM Gen.Buckets) : Prop :=
  ∀ s r t, m s = (r, t) → ∀ b2, r = Except.ok b2 → P b2

theorem bucketPost_pureG {P : Gen.Buckets → Prop} {b : Gen.Buckets}
    (h : P b) : BucketPost P (GenM.pureG b) := by
  intro s r t hrun b2 hok
  have hr : Except.ok b = r := congrArg Prod.fst hrun
  rw [← hr] at hok
  injection hok with hb
  rw [← hb]
  exact h

theorem bucketPost_throwG {P : Gen.Buckets → Prop} (e : PyErr) :
    BucketPost P (GenM.throwG e) := by
  intro s r t hrun b2 hok
  have hr : Except.error e = r := congrArg Prod.fst hrun
  rw [← hr] at hok
  simp at hok

theorem bucketPost_bindG {α : Type} {P : Gen.Buckets → Prop} {m : GenM α}
    {g : α → GenM Gen.Buckets} (hg : ∀ a, BucketPost P (g a)) :
    BucketPost P (GenM.bindG m g) := by
  intro s r t hrun b2 hok
  unfold GenM.bindG at hrun
  rcases h1 : m s with ⟨r1, t1⟩
  rw [h1] at hrun
  cases r1 with
  | ok a => exact hg a t1 r t hrun b2 hok
  | error e =>
      have hr : Except.error e = r := congrArg Prod.fst hrun
      rw [← hr] at hok
      simp at hok

theorem bucketPost_ite {P : Gen.Buckets → Prop} (c : Prop) [Decidable c]
    {m1 m2 : GenM Gen.Buckets} (h1 : BucketPost P m1) (h2 : BucketPost P m2) :
    BucketPost P (if c then m1 else m2) := by
  by_cases hc : c
  · rw [if_pos hc]
    exact h1
  · rw [if_neg hc]
    exact h2

/-- Whatever branch a classification step takes, the engine bucket of the
result is either unchanged or the input bucket with the visited index
appended (generator.py lines 124-166 only ever append). -/
theorem classifyFace_engine (i : Nat) (b : Gen.Buckets) :
    BucketPost (fun b2 => b2.engine_faces = b.engine_faces ∨
      b2.engine_faces = b.engine_faces ++ [i]) (Gen.classifyFace i b) := by
  unfold Gen.classifyFace
  simp only [GenM.bind_def, GenM.pure_def]
  refine bucketPost_bindG (fun ar => ?_)
  refine bucketPost_ite _ (bucketPost_pureG (Or.inl rfl)) ?_
  refine bucketPost_bindG (fun val => ?_)
  refine bucketPost_bindG (fun f => ?_)
  refine bucketPost_ite _ ?_ ?_
  · refine bucketPost_ite _ (bucketPost_pureG (Or.inr rfl)) ?_
    refine bucketPost_ite _ (bucketPost_pureG (Or.inl rfl)) ?_
    refine bucketPost_ite _ (bucketPost_pureG (Or.inl rfl)) ?_
    exact bucketPost_bindG (fun _ => bucketPost_pureG (Or.inl rfl))
  · refine bucketPost_ite _ ?_ ?_
    · refine bucketPost_bindG (fun c => ?_)
      refine bucketPost_ite _ ?_ ?_
      · exact bucketPost_bindG (fun _ => bucketPost_pureG (Or.inl rfl))
      · refine bucketPost_ite _ (bucketPost_pureG (Or.inl rfl)) ?_
        exact bucketPost_bindG (fun _ => bucketPost_pureG (Or.inl rfl))
    · refine bucketPost_ite _ ?_ ?_
      · refine bucketPost_bindG (fun c => ?_)
        refine bucketPost_ite _ ?_ ?_
        · exact bucketPost_bindG (fun _ => bucketPost_pureG (Or.inl rfl))
        · refine bucketPost_ite _ (bucketPost_pureG (Or.inl rfl)) ?_
          refine bucketPost_ite _ (bucketPost_pureG (Or.inl rfl))
            (bucketPost_pureG (Or.inl rfl))
      · refine bucketPost_ite _ ?_ ?_
        · refine bucketPost_ite _ (bucketPost_pureG (Or.inl rfl)) ?_
          refine bucketPost_ite _ (bucketPost_pureG (Or.inl rfl)) ?_
          refine bucketPost_ite _ (bucketPost_pureG (Or.inl rfl))
            (bucketPost_pureG (Or.inl rfl))
        · refine bucketPost_ite _ (bucketPost_pureG (Or.inl rfl)) ?_
          refine bucketPost_ite _ (bucketPost_pureG (Or.inl rfl)) ?_
          refine bucketPost_ite _ (bucketPost_pureG (Or.inl rfl))
            (bucketPost_pureG (Or.inl rfl))

/-- A classification step only touches material tags and the random
stream: the vertex arena and every face's geometry survive it. -/
theorem matOnlyM_classifyFace (i : Nat) (b : Gen.Buckets) :
    MatOnlyM (Gen.classifyFace i b) := by
  unfold Gen.classifyFace
  simp only [GenM.bind_def, GenM.pure_def]
  refine matOnlyM_bindG (matOnlyM_of_readOnly (readOnly_get_aspect_ratio i))
    (fun ar => ?_)
  refine matOnlyM_ite _ (matOnlyM_of_readOnly (readOnly_pureG _)) ?_
  refine matOnlyM_bindG matOnlyM_pyRandom (fun val => ?_)
  refine matOnlyM_bindG (matOnlyM_of_readOnly (readOnly_getFace i)) (fun f => ?_)
  refine matOnlyM_ite _ ?_ ?_
  · refine matOnlyM_ite _ (matOnlyM_of_readOnly (readOnly_pureG _)) ?_
    refine matOnlyM_ite _ (matOnlyM_of_readOnly (readOnly_pureG _)) ?_
    refine matOnlyM_ite _ (matOnlyM_of_readOnly (readOnly_pureG _)) ?_
    exact matOnlyM_bindG (matOnlyM_setFaceMaterial i _)
      (fun _ => matOnlyM_of_readOnly (readOnly_pureG _))
  · refine matOnlyM_ite _ ?_ ?_
    · refine matOnlyM_bindG (matOnlyM_of_readOnly (readOnly_calc_center_bounds f))
        (fun c => ?_)
      refine matOnlyM_ite _ ?_ ?_
      · exact matOnlyM_bindG (matOnlyM_setFaceMaterial i _)
          (fun _ => matOnlyM_of_readOnly (readOnly_pureG _))
      · refine matOnlyM_ite _ (matOnlyM_of_readOnly (readOnly_pureG _)) ?_
        exact matOnlyM_bindG (matOnlyM_setFaceMaterial i _)
          (fun _ => matOnlyM_of_readOnly (readOnly_pureG _))
    · refine matOnlyM_ite _ ?_ ?_
      · refine matOnlyM_bindG
          (matOnlyM_of_readOnly (readOnly_calc_center_bounds f)) (fun c => ?_)
        refine matOnlyM_ite _ ?_ ?_
        · exact matOnlyM_bindG (matOnlyM_setFaceMaterial i _)
            (fun _ => matOnlyM_of_readOnly (readOnly_pureG _))
        · refine matOnlyM_ite _ (matOnlyM_of_readOnly (readOnly_pureG _)) ?_
          refine matOnlyM_ite _ (matOnlyM_of_readOnly (readOnly_pureG _))
            (matOnlyM_of_readOnly (readOnly_pureG _))
      · refine matOnlyM_ite _ ?_ ?_
        · refine matOnlyM_ite _ (matOnlyM_of_readOnly (readOnly_pureG _)) ?_
          refine matOnlyM_ite _ (matOnlyM_of_readOnly (readOnly_pureG _)) ?_
          refine matOnlyM_ite _ (matOnlyM_of_readOnly (readOnly_pureG _))
            (matOnlyM_of_readOnly (readOnly_pureG _))
        · refine matOnlyM_ite _ (matOnlyM_of_readOnly (readOnly_pureG _)) ?_
          refine matOnlyM_ite _ (matOnlyM_of_readOnly (readOnly_pureG _)) ?_
          refine matOnlyM_ite _ (matOnlyM_of_readOnly (readOnly_pureG _))
            (matOnlyM_of_readOnly (readOnly_pureG _))

/-- The rear-branch decision tree for a visit that is not forced (engine
bucket already non-empty), transcribed from generator.py lines 130-137:
engine above 0.75, cylinder above 0.5, grid above 0.25, otherwise no
bucket (only the material tag changes). -/
def rearBucket (b : Gen.Buckets) (i : Nat) (val : ℝ) : Gen.Buckets :=
  if val > 0.75 then { b with engine_faces := b.engine_faces ++ [i] }
  else if val > 0.5 then { b with cylinder_faces := b.cylinder_faces ++ [i] }
  else if val > 0.25 then { b with grid_faces := b.grid_faces ++ [i] }
  else b

/-- With the engine bucket still empty, a rear-eligible visit is forced
into the engine bucket whatever its draw: line 130's
`not engine_faces or val > 0.75` short-circuits on the first disjunct. -/
theorem classifyFace_first_rear (i : Nat) (b : Gen.Buckets) (s : GState)
    (he : RearEligible s i) (hb : b.engine_faces = []) :
    Gen.classifyFace i b s =
      (Except.ok { b with engine_faces := b.engine_faces ++ [i] },
       { s with rng := ⟨s.rng.stream, s.rng.k + 1⟩ }) := by
  obtain ⟨⟨f, hf, hrear⟩, ar, har, har3⟩ := he
  have haf : Gen.get_aspect_ratio i s = (Except.ok ar, s) :=
    readOnly_run (readOnly_get_aspect_ratio i) har
  unfold Gen.classifyFace
  simp only [GenM.bind_def, GenM.pure_def]
  rw [GenM.bindG_ok haf]
  rw [if_neg har3]
  rw [GenM.bindG_ok (show GenM.pyRandom s = (Except.ok (s.rng.stream s.rng.k),
    { s with rng := ⟨s.rng.stream, s.rng.k + 1⟩ }) from rfl)]
  rw [GenM.bindG_ok (GenM.getFace_ok
    (show ({ s with rng := (⟨s.rng.stream, s.rng.k + 1⟩ : RNG) } :
      GState).mesh.faces.get? i = some f from hf))]
  rw [if_pos hrear]
  rw [if_pos (Or.inl hb)]
  rfl

/-- With the engine bucket already non-empty, a rear-eligible visit is
bucketed purely by its draw, following `rearBucket`. -/
theorem classifyFace_later_rear (i : Nat) (b : Gen.Buckets) (s : GState)
    (he : RearEligible s i) (hb : b.engine_faces ≠ []) :
    ∃ t, Gen.classifyFace i b s =
      (Except.ok (rearBucket b i (s.rng.stream s.rng.k)), t) := by
  obtain ⟨⟨f, hf, hrear⟩, ar, har, har3⟩ := he
  have haf : Gen.get_aspect_ratio i s = (Except.ok ar, s) :=
    readOnly_run (readOnly_get_aspect_ratio i) har
  unfold Gen.classifyFace
  simp only [GenM.bind_def, GenM.pure_def]
  rw [GenM.bindG_ok haf]
  rw [if_neg har3]
  rw [GenM.bindG_ok (show GenM.pyRandom s = (Except.ok (s.rng.stream s.rng.k),
    { s with rng := ⟨s.rng.stream, s.rng.k + 1⟩ }) from rfl)]
  rw [GenM.bindG_ok (GenM.getFace_ok
    (show ({ s with rng := (⟨s.rng.stream, s.rng.k + 1⟩ : RNG) } :
      GState).mesh.faces.get? i = some f from hf))]
  rw [if_pos hrear]
  unfold rearBucket
  by_cases h75 : s.rng.stream s.rng.k > 0.75
  · rw [if_pos (Or.inr h75), if_pos h75]
    exact ⟨_, rfl⟩
  · have hcond : ¬(b.engine_faces = [] ∨ s.rng.stream s.rng.k > 0.75) := by
      rintro (h1 | h2)
      · exact hb h1
      · exact h75 h2
    rw [if_neg hcond, if_neg h75]
    by_cases h50 : s.rng.stream s.rng.k > 0.5
    · rw [if_pos h50, if_pos h50]
      exact ⟨_, rfl⟩
    · rw [if_neg h50, if_neg h50]
      by_cases h25 : s.rng.stream s.rng.k > 0.25
      · rw [if_pos h25, if_pos h25]
        exact ⟨_, rfl⟩
      · rw [if_neg h25, if_neg h25]
        exact ⟨_, rfl⟩

/-- A successful classification step on a rear-eligible index leaves the
engine bucket non-empty: forced in when empty, preserved when not. -/
theorem classifyFace_rear_nonempty {i : Nat} {b : Gen.Buckets} {s : GState}
    (he : RearEligible s i) {b2 : Gen.Buckets} {t : GState}
    (hrun : Gen.classifyFace i b s = (Except.ok b2, t)) :
    b2.engine_faces ≠ [] := by
  by_cases hb : b.engine_faces = []
  · rw [classifyFace_first_rear i b s he hb] at hrun
    have hfst := congrArg Prod.fst hrun
    have hb2 : { b with engine_faces := b.engine_faces ++ [i] } = b2 := by
      simpa using hfst
    rw [← hb2]
    simp
  · have h := classifyFace_engine i b s (Except.ok b2) t hrun b2 rfl
    rcases h with h | h
    · rw [h]
      exact hb
    · rw [h]
      simp

/-- The loop invariant of the classification pass: the engine bucket of a
successful run is non-empty as soon as it started non-empty or some index
of the remaining worklist is rear-eligible. -/
theorem classifyLoop_engine : ∀ (idxs : List Nat) (b : Gen.Buckets)
    (s : GState) (r : Gen.Buckets) (t : GState),
    Gen.classifyLoop idxs b s = (Except.ok r, t) →
    (b.engine_faces ≠ [] ∨ ∃ i ∈ idxs, RearEligible s i) →
    r.engine_faces ≠ [] := by
  intro idxs
  induction idxs with
  | nil =>
      intro b s r t hrun hh
      have hrun2 : (Except.ok b, s) = ((Except.ok r : Except PyErr Gen.Buckets), t) := hrun
      have hr : b = r := by
        have := congrArg Prod.fst hrun2
        simpa using this
      rcases hh with hne | ⟨i, hi, _⟩
      · rw [← hr]
        exact hne
      · simp at hi
  | cons i rest ih =>
      intro b s r t hrun hh
      have hrun2 : GenM.bindG (Gen.classifyFace i b)
          (fun b2 => Gen.classifyLoop rest b2) s = (Except.ok r, t) := hrun
      unfold GenM.bindG at hrun2
      rcases h1 : Gen.classifyFace i b s with ⟨r1, s1⟩
      rw [h1] at hrun2
      cases r1 with
      | error e => simp at hrun2
      | ok b2 =>
          have hmat : MatOnly s s1 :=
            matOnlyM_classifyFace i b s (Except.ok b2) s1 h1
          rcases hh with hne | ⟨j, hj, hel⟩
          · have h2 := classifyFace_engine i b s (Except.ok b2) s1 h1 b2 rfl
            have hb2 : b2.engine_faces ≠ [] := by
              rcases h2 with h2 | h2
              · rw [h2]
                exact hne
              · rw [h2]
                simp
            exact ih b2 s1 r t hrun2 (Or.inl hb2)
          · rcases List.mem_cons.mp hj with rfl | hjr
            · have hb2 := classifyFace_rear_nonempty hel h1
              exact ih b2 s1 r t hrun2 (Or.inl hb2)
            · exact ih b2 s1 r t hrun2
                (Or.inr ⟨j, hjr, rearEligible_transfer hmat hel⟩)

/-- C9: in the detail-classification pass (generator.py lines 124-166) a
rear-eligible visit made while the engine bucket is still empty is forced
into the engine bucket whatever its draw; a rear-eligible visit made once
the engine bucket is non-empty is bucketed purely by its draw (engine above
0.75, cylinder above 0.5, grid above 0.25, otherwise only a material tag);
and a successful classification loop ends with a non-empty engine bucket
whenever its worklist contains a rear-eligible index. -/
theorem C9_first_rear_forced_engine :
    (∀ (i : Nat) (b : Gen.Buckets) (s : GState), RearEligible s i →
        b.engine_faces = [] →
        Gen.classifyFace i b s =
          (Except.ok { b with engine_faces := b.engine_faces ++ [i] },
           { s with rng := ⟨s.rng.stream, s.rng.k + 1⟩ })) ∧
    (∀ (i : Nat) (b : Gen.Buckets) (s : GState), RearEligible s i →
        b.engine_faces ≠ [] →
        ∃ t, Gen.classifyFace i b s =
          (Except.ok (rearBucket b i (s.rng.stream s.rng.k)), t)) ∧
    (∀ (idxs : List Nat) (b : Gen.Buckets) (s : GState) (r : Gen.Buckets)
        (t : GState),
        Gen.classifyLoop idxs b s = (Except.ok r, t) →
        (b.engine_faces ≠ [] ∨ ∃ i ∈ idxs, RearEligible s i) →
        r.engine_faces ≠ []) :=
  ⟨classifyFace_first_rear, classifyFace_later_rear, classifyLoop_engine⟩

/-- C10 witness: a concrete valid quad whose second loop edge is degenerate
makes `get_aspect_ratio` raise ZeroDivisionError. -/
theorem C10_aspect_ratio_div_by_zero_witness :
    Gen.get_aspect_ratio 0 degenState = (Except.error PyErr.zeroDivisionError,
      degenState) := by
  refine C10_aspect_ratio_div_by_zero degenState 0
    ⟨[0, 1, 2, 3], ⟨0, 0, 1⟩, Material.hull, true⟩ 1 rfl rfl ?_ ?_
  · show Gen.edgeLength _ 0 degenState = _
    unfold Gen.edgeLength
    simp only [GenM.bind_def, GenM.pure_def]
    norm_num [GenM.bindG, GenM.faceVert, GenM.getVert, GenM.pureG, degenState,
      degenMesh, Vec3.vnorm, Vec3.dot]
  · show Gen.edgeLength _ 1 degenState = _
    unfold Gen.edgeLength
    simp only [GenM.bind_def, GenM.pure_def]
    norm_num [GenM.bindG, GenM.faceVert, GenM.getVert, GenM.pureG, degenState,
      degenMesh, Vec3.vnorm, Vec3.dot]

end

end SSG
